import Mathlib

/-!
Verification of the codedna structural/dependency graph engine.

This file shallowly embeds the Go sources of the repository's analysis core:

* `internal/core/parser/ast` (generic AST node contract, `src/unnamed/part_002`),
* `internal/core/analysis/structure/golang` (structure analyzer, model, metrics),
* `internal/core/analysis/dependency` (graph, Go dependency analyzer, merge).

Modelling conventions:

* Go `map[string]any` attribute bags are association lists `List (String × AttrVal)`;
  a checked type assertion `v, ok := m[k].(T)` is a lookup followed by a constructor
  match (`none` models `ok = false`); an unchecked assertion that fails is a Go
  runtime panic, modelled by the `Res.crash` outcome.
* Go pointers `*TypeInfo` (which may be nil) are `Option TypeInfo`; `*Element`
  reference identity is modelled by a `Nat` id allocated in creation order.
* Unbounded recursion in the Go code (`typeMethods` / `interfaceMethods`, which
  have no visited set) is given an explicit fuel parameter; running out of fuel
  yields `Res.diverge`, modelling non-termination of the Go original.
* Go `error` returns are `Res.err`.
-/

namespace CodeDNA

/-- ast.Position (language-agnostic AST, package ast). -/
structure Position where
  line : Int
  column : Int
  offset : Int
deriving DecidableEq, Repr

/-- goparser.TypeInfo (internal/core/parser/golang/parser.go): structural type
representation.  Nullable pointer fields (`ElemType`, `KeyType`, `ValueType`)
become `Option TypeInfo`. -/
inductive TypeInfo where
  | mk (kind : String) (name : String)
      (elemType : Option TypeInfo) (keyType : Option TypeInfo) (valueType : Option TypeInfo)
      (typeParams : List TypeInfo) (typeArgs : List TypeInfo) (constraints : List TypeInfo)
      (isTypeParam : Bool)

/-- Field accessor for TypeInfo.Kind. -/
def TypeInfo.kind : TypeInfo → String
  | .mk k _ _ _ _ _ _ _ _ => k

/-- Field accessor for TypeInfo.Name. -/
def TypeInfo.name : TypeInfo → String
  | .mk _ n _ _ _ _ _ _ _ => n

/-- Field accessor for TypeInfo.ElemType. -/
def TypeInfo.elemType : TypeInfo → Option TypeInfo
  | .mk _ _ e _ _ _ _ _ _ => e

/-- Field accessor for TypeInfo.KeyType. -/
def TypeInfo.keyType : TypeInfo → Option TypeInfo
  | .mk _ _ _ k _ _ _ _ _ => k

/-- Field accessor for TypeInfo.ValueType. -/
def TypeInfo.valueType : TypeInfo → Option TypeInfo
  | .mk _ _ _ _ v _ _ _ _ => v

/-- Convenience constructor: a TypeInfo with only Kind and Name set
(all pointer fields nil, all lists empty), as in Go composite literals
such as `&TypeInfo{Kind: "basic", Name: "int"}`. -/
def basicTI (kind name : String) : TypeInfo :=
  .mk kind name none none none [] [] [] false

/-- Convenience constructor: a TypeInfo with Kind and ElemType set, as in
`&TypeInfo{Kind: "slice", ElemType: t}` (Name is the empty string). -/
def elemTI (kind : String) (elem : TypeInfo) : TypeInfo :=
  .mk kind "" (some elem) none none [] [] [] false

/-- A value stored in a Go `map[string]any` attribute bag.  The constructors
cover every dynamic type the analysis code stores or asserts. -/
inductive AttrVal where
  | vStr (s : String)
  | vBool (b : Bool)
  | vTypeInfo (t : Option TypeInfo)
  | vTypeList (ts : List (Option TypeInfo))
  | vMap (m : List (String × AttrVal))
  | vMapList (ms : List (List (String × AttrVal)))
  | vStrList (ss : List String)

/-- An attribute bag: Go `map[string]any`. -/
abbrev Attrs := List (String × AttrVal)

/-- Map lookup (`m[k]`): first binding for the key, `none` when absent. -/
def lookupAttr : Attrs → String → Option AttrVal
  | [], _ => none
  | (k, v) :: rest, key => if k = key then some v else lookupAttr rest key

/-- Map assignment (`m[k] = v`): replace the binding if present, else append. -/
def updateAttr : Attrs → String → AttrVal → Attrs
  | [], key, v => [(key, v)]
  | (k, w) :: rest, key, v =>
      if k = key then (key, v) :: rest else (k, w) :: updateAttr rest key v

/-- Checked assertion `s, ok := m[k].(string)`. -/
def attrString (attrs : Attrs) (key : String) : Option String :=
  match lookupAttr attrs key with
  | some (.vStr s) => some s
  | _ => none

/-- Checked assertion `b, ok := m[k].(bool)`. -/
def attrBool (attrs : Attrs) (key : String) : Option Bool :=
  match lookupAttr attrs key with
  | some (.vBool b) => some b
  | _ => none

/-- Checked assertion `t, ok := m[k].(*goparser.TypeInfo)`; the asserted
pointer may itself be nil, hence the nested Option. -/
def attrTypeInfo (attrs : Attrs) (key : String) : Option (Option TypeInfo) :=
  match lookupAttr attrs key with
  | some (.vTypeInfo t) => some t
  | _ => none

/-- Checked assertion `ts, ok := m[k].([]*goparser.TypeInfo)`. -/
def attrTypeList (attrs : Attrs) (key : String) : Option (List (Option TypeInfo)) :=
  match lookupAttr attrs key with
  | some (.vTypeList ts) => some ts
  | _ => none

/-- Checked assertion `mm, ok := m[k].(map[string]any)`. -/
def attrMap (attrs : Attrs) (key : String) : Option Attrs :=
  match lookupAttr attrs key with
  | some (.vMap m) => some m
  | _ => none

/-- Checked assertion `ms, ok := m[k].([]map[string]any)`. -/
def attrMapList (attrs : Attrs) (key : String) : Option (List Attrs) :=
  match lookupAttr attrs key with
  | some (.vMapList ms) => some ms
  | _ => none

/-- ast.Node: position, kind tag, ordered children, open attribute bag. -/
inductive AstNode where
  | mk (position : Position) (nodeType : String) (children : List AstNode) (attributes : Attrs)

/-- Field accessor for Node.Position(). -/
def AstNode.position : AstNode → Position
  | .mk p _ _ _ => p

/-- Field accessor for Node.Type(). -/
def AstNode.nodeType : AstNode → String
  | .mk _ t _ _ => t

/-- Field accessor for Node.Children(). -/
def AstNode.children : AstNode → List AstNode
  | .mk _ _ c _ => c

/-- Field accessor for Node.Attributes(). -/
def AstNode.attributes : AstNode → Attrs
  | .mk _ _ _ a => a

/-- Outcome of running a piece of the Go analysis code: a normal value, a Go
`error` return, a runtime panic (failed unchecked type assertion), or
non-termination (the explicit fuel of the embedding ran out). -/
inductive Res (α : Type) where
  | ok (a : α)
  | err (msg : String)
  | crash
  | diverge
deriving Repr

/-- Sequencing for `Res`: propagating errors, panics and divergence. -/
def Res.bind {α β : Type} : Res α → (α → Res β) → Res β
  | .ok a, f => f a
  | .err m, _ => .err m
  | .crash, _ => .crash
  | .diverge, _ => .diverge

instance : Monad Res where
  pure := Res.ok
  bind := Res.bind

/-! ### Structure model (internal/core/analysis/structure/golang/model.go) -/

/-- gostructure.ElementPackage. -/
def ElementPackage : String := "package"

/-- gostructure.ElementInterface. -/
def ElementInterface : String := "interface"

/-- gostructure.ElementTypeDecl. -/
def ElementTypeDecl : String := "type"

/-- gostructure.ElementFunction. -/
def ElementFunction : String := "function"

/-- gostructure.ElementMethod. -/
def ElementMethod : String := "method"

/-- gostructure.ElementVariable. -/
def ElementVariable : String := "variable"

/-- gostructure.RelationContains. -/
def RelationContains : String := "contains"

/-- gostructure.RelationImplements. -/
def RelationImplements : String := "implements"

/-- gostructure.RelationEmbeds. -/
def RelationEmbeds : String := "embeds"

/-- gostructure.RelationInterfaceEmbeds. -/
def RelationInterfaceEmbeds : String := "interface_embeds"

/-- gostructure.RelationMethodReceiver. -/
def RelationMethodReceiver : String := "method_receiver"

/-- gostructure.RelationCalls. -/
def RelationCalls : String := "calls"

/-- gostructure.RelationReferences. -/
def RelationReferences : String := "references"

/-- gostructure.Element.  Go Elements are heap objects compared by pointer;
`id` models that reference identity (ids are allocated in creation order). -/
structure Element where
  id : Nat
  etype : String
  name : String
  attributes : Attrs

/-- gostructure.Relationship: (Type, Source, Target); Source/Target hold the
ids of the two Elements (Go stores `*Element` and compares pointers). -/
structure Relationship where
  rtype : String
  source : Nat
  target : Nat
deriving DecidableEq, Repr

/-- gostructure.Structure: the analyzed code structure. -/
structure Structure where
  elements : List Element
  relationships : List Relationship

/-- gostructure.Analysis: results of Go code structure analysis.  The
`language` field is set to "go" by `NewAnalysis`. -/
structure Analysis where
  language : String
  str : Structure

/-- Analyzer.hasRelationship: checks if a relationship already exists
(comparing Type and the Source/Target identities). -/
def hasRelationship (rels : List Relationship) (rel : Relationship) : Bool :=
  rels.any (fun existing =>
    existing.rtype == rel.rtype && existing.source == rel.source && existing.target == rel.target)

/-- The check-then-insert step used (inline) at every structure-side
relationship insertion site: `if !a.hasRelationship(analysis, rel) { append }`. -/
def addRelIfNew (rels : List Relationship) (rel : Relationship) : List Relationship :=
  if hasRelationship rels rel then rels else rels ++ [rel]

/-- Analyzer.findPackage: first package element. -/
def findPackage (elements : List Element) : Option Element :=
  elements.find? (fun e => e.etype == ElementPackage)

/-- Analyzer.findElementsByType. -/
def findElementsByType (elements : List Element) (t : String) : List Element :=
  elements.filter (fun e => e.etype == t)

/-- Analyzer.findTypeByName: first type or interface element with the name. -/
def findTypeByName (elements : List Element) (name : String) : Option Element :=
  elements.find? (fun e =>
    (e.etype == ElementTypeDecl || e.etype == ElementInterface) && e.name == name)

/-- mapNodeType: maps AST node types to element types (default: type decl). -/
def mapNodeType (nodeType : String) : String :=
  if nodeType = "Package" || nodeType = "Module" then ElementPackage
  else if nodeType = "Type" then ElementTypeDecl
  else if nodeType = "Function" then ElementFunction
  else if nodeType = "Method" then ElementMethod
  else if nodeType = "Interface" then ElementInterface
  else if nodeType = "Variable" then ElementVariable
  else if nodeType = "Block" then ""
  else ElementTypeDecl

/-- nodeName: package nodes are named from `package_name`, then any node from
`name`; no fallback names are generated. -/
def nodeName (node : AstNode) : String :=
  let pkgErased :=
    if node.nodeType = "Package" || node.nodeType = "Module" then
      attrString node.attributes "package_name"
    else none
  match pkgErased with
  | some n => n
  | none =>
    match attrString node.attributes "name" with
    | some n => n
    | none => ""

/-- State threaded through the tree walk: the structure built so far plus the
next fresh Element id (Go allocates Elements on the heap; ids model that). -/
structure BuildSt where
  str : Structure
  nextId : Nat

mutual

/-- Analyzer.analyzeNode: walks one AST node.  Block nodes are not
materialized (children are spliced under the package); nodes whose mapped
element type is empty are skipped; every other node becomes an Element and
its materialized children get a `contains` relationship from the package
(or from the node itself when it is the package). -/
def analyzeNode : AstNode → BuildSt → Option Element × BuildSt
  | .mk pos ntype children attrs, st =>
    if ntype = "Block" then
      (none, analyzeBlockChildren children st)
    else
      let elemType := mapNodeType ntype
      if elemType = "" then (none, st)
      else
        let element : Element :=
          { id := st.nextId, etype := elemType,
            name := nodeName (.mk pos ntype children attrs), attributes := attrs }
        let st1 : BuildSt :=
          { str := { elements := st.str.elements ++ [element],
                        relationships := st.str.relationships },
            nextId := st.nextId + 1 }
        (some element, analyzeElemChildren element children st1)

/-- Children of a Block node: added directly to the package. -/
def analyzeBlockChildren : List AstNode → BuildSt → BuildSt
  | [], st => st
  | child :: rest, st =>
    let res := analyzeNode child st
    let st2 :=
      match res.1 with
      | none => res.2
      | some ce =>
        match findPackage res.2.str.elements with
        | none => res.2
        | some pkg =>
          let rels := addRelIfNew res.2.str.relationships
            { rtype := RelationContains, source := pkg.id, target := ce.id }
          { res.2 with str := { res.2.str with relationships := rels } }
    analyzeBlockChildren rest st2

/-- Children of a materialized node: `contains` from the element itself when
it is the package, else from the (first) package element. -/
def analyzeElemChildren : Element → List AstNode → BuildSt → BuildSt
  | _, [], st => st
  | element, child :: rest, st =>
    let res := analyzeNode child st
    let st2 :=
      match res.1 with
      | none => res.2
      | some ce =>
        let source : Option Element :=
          if element.etype = ElementPackage then some element
          else findPackage res.2.str.elements
        match source with
        | none => res.2
        | some src =>
          let rels := addRelIfNew res.2.str.relationships
            { rtype := RelationContains, source := src.id, target := ce.id }
          { res.2 with str := { res.2.str with relationships := rels } }
    analyzeElemChildren element rest st2

end

/-! ### Signature matching (structure analyzer) -/

mutual

/-- The non-nil case of Analyzer.typeMatches: kinds and names must agree;
pointer and slice descend into the element type, map into key and value; all
other kinds compare by kind and name only. -/
def typeMatchesT : TypeInfo → TypeInfo → Bool
  | .mk k1 n1 e1 ky1 v1 _ _ _ _, .mk k2 n2 e2 ky2 v2 _ _ _ _ =>
    if k1 ≠ k2 || n1 ≠ n2 then false
    else if k1 = "pointer" then typeMatches e1 e2
    else if k1 = "slice" then typeMatches e1 e2
    else if k1 = "map" then typeMatches ky1 ky2 && typeMatches v1 v2
    else true
termination_by structural t1 _ => t1

/-- Analyzer.typeMatches on two (nullable) type pointers: both nil compare
equal, one nil does not. -/
def typeMatches : Option TypeInfo → Option TypeInfo → Bool
  | none, none => true
  | some _, none => false
  | none, some _ => false
  | some t1, some t2 => typeMatchesT t1 t2

end

/-- Analyzer.typeListMatches: equal length and pairwise typeMatches. -/
def typeListMatches (ts1 ts2 : List (Option TypeInfo)) : Bool :=
  if ts1.length ≠ ts2.length then false
  else (ts1.zip ts2).all (fun p => typeMatches p.1 p.2)

/-- Analyzer.signatureMatches: optional receiver comparison (skipped when the
first signature has no receiver; failing when only the first has one), then
params and returns via typeListMatches. -/
def signatureMatches (sig1 sig2 : Attrs) : Bool :=
  let recvOk :=
    match lookupAttr sig1 "receiver_type" with
    | some (.vTypeInfo recv1) =>
      match lookupAttr sig2 "receiver_type" with
      | some (.vTypeInfo recv2) => typeMatches recv1 recv2
      | _ => false
    | _ => true
  if !recvOk then false
  else
    match attrTypeList sig1 "params", attrTypeList sig2 "params" with
    | some params1, some params2 =>
      if !typeListMatches params1 params2 then false
      else
        match attrTypeList sig1 "returns", attrTypeList sig2 "returns" with
        | some returns1, some returns2 => typeListMatches returns1 returns2
        | _, _ => false
    | _, _ => false

/-- The receiver-name resolution used throughout the analyzers: take the
type's Name, except for a pointer whose ElemType is non-nil, where the
element type's Name is taken. -/
def resolveTypeName (t : TypeInfo) : String :=
  if t.kind = "pointer" then
    match t.elemType with
    | some e => e.name
    | none => t.name
  else t.name

/-! ### Pattern detection (structure analyzer) -/

/-- The primitive/builtin leaf names skipped by both addTypeReference
implementations. -/
def primitiveTypes : List String :=
  ["bool", "string", "int", "int8", "int16", "int32", "int64",
   "uint", "uint8", "uint16", "uint32", "uint64",
   "float32", "float64", "complex64", "complex128", "byte", "rune", "error"]

mutual

/-- The non-nil case of Analyzer.addTypeReference (structure side):
recursively unwrap pointer/slice element types and map key/value types; at a
non-primitive basic leaf with a non-empty name, record a deduplicated
`references` relationship to the named type or interface element. -/
def addTypeReferenceT (elements : List Element) (sourceId : Nat)
    (rels : List Relationship) : TypeInfo → List Relationship
  | .mk kind name elemType keyType valueType _ _ _ _ =>
    if kind = "pointer" && elemType.isSome then
      addTypeReference elements sourceId rels elemType
    else if kind = "slice" && elemType.isSome then
      addTypeReference elements sourceId rels elemType
    else if kind = "map" then
      addTypeReference elements sourceId (addTypeReference elements sourceId rels keyType) valueType
    else if kind = "basic" && name ≠ "" then
      if primitiveTypes.contains name then rels
      else
        match findTypeByName elements name with
        | some target =>
          addRelIfNew rels { rtype := RelationReferences, source := sourceId, target := target.id }
        | none =>
          match (findElementsByType elements ElementInterface).find? (fun i => i.name == name) with
          | some iface =>
            addRelIfNew rels { rtype := RelationReferences, source := sourceId, target := iface.id }
          | none => rels
    else rels
termination_by structural t => t

/-- Analyzer.addTypeReference (structure side) on a nullable pointer: nil
contributes nothing (the source's nil guards on key/value/element types
coincide with this check). -/
def addTypeReference (elements : List Element) (sourceId : Nat)
    (rels : List Relationship) : Option TypeInfo → List Relationship
  | none => rels
  | some t => addTypeReferenceT elements sourceId rels t

end

/-- Analyzer.detectTypeReferences: field types of type elements, signature
types of functions and methods (including the method receiver), and method
signature / embedded types of interfaces, in the order of the source. -/
def detectTypeReferences (s : Structure) : Structure :=
  let rels1 := (findElementsByType s.elements ElementTypeDecl).foldl (fun rels typ =>
    match attrMapList typ.attributes "fields" with
    | some fields =>
      fields.foldl (fun rels field =>
        match attrTypeInfo field "type" with
        | some fieldType => addTypeReference s.elements typ.id rels fieldType
        | none => rels) rels
    | none => rels) s.relationships
  let rels2 := (findElementsByType s.elements ElementFunction).foldl (fun rels fn =>
    match attrMap fn.attributes "signature" with
    | some sig =>
      let rels :=
        match attrTypeList sig "params" with
        | some params => params.foldl (fun rels param => addTypeReference s.elements fn.id rels param) rels
        | none => rels
      match attrTypeList sig "returns" with
      | some returns => returns.foldl (fun rels ret => addTypeReference s.elements fn.id rels ret) rels
      | none => rels
    | none => rels) rels1
  let rels3 := (findElementsByType s.elements ElementMethod).foldl (fun rels m =>
    match attrMap m.attributes "signature" with
    | some sig =>
      let rels :=
        match attrTypeInfo sig "receiver_type" with
        | some (some recv) => addTypeReference s.elements m.id rels (some recv)
        | _ => rels
      let rels :=
        match attrTypeList sig "params" with
        | some params => params.foldl (fun rels param => addTypeReference s.elements m.id rels param) rels
        | none => rels
      match attrTypeList sig "returns" with
      | some returns => returns.foldl (fun rels ret => addTypeReference s.elements m.id rels ret) rels
      | none => rels
    | none => rels) rels2
  let rels4 := (findElementsByType s.elements ElementInterface).foldl (fun rels iface =>
    let rels :=
      match attrMapList iface.attributes "methods" with
      | some methods =>
        methods.foldl (fun rels m =>
          match attrMap m "signature" with
          | some sig =>
            let rels :=
              match attrTypeList sig "params" with
              | some params => params.foldl (fun rels param => addTypeReference s.elements iface.id rels param) rels
              | none => rels
            match attrTypeList sig "returns" with
            | some returns => returns.foldl (fun rels ret => addTypeReference s.elements iface.id rels ret) rels
            | none => rels
          | none => rels) rels
      | none => rels
    match attrMapList iface.attributes "embedded" with
    | some embedded =>
      embedded.foldl (fun rels embed =>
        match attrTypeInfo embed "type" with
        | some embedType => addTypeReference s.elements iface.id rels embedType
        | none => rels) rels
    | none => rels) rels3
  { s with relationships := rels4 }

/-- Analyzer.detectMethodReceivers: resolve each method's receiver type
(one pointer level) and record `method_receiver` when a matching element
exists. -/
def detectMethodReceivers (s : Structure) : Structure :=
  let rels := (findElementsByType s.elements ElementMethod).foldl (fun rels method =>
    match attrTypeInfo method.attributes "receiver_type" with
    | some (some recv) =>
      let typeName := resolveTypeName recv
      match findTypeByName s.elements typeName with
      | some recvType =>
        addRelIfNew rels { rtype := RelationMethodReceiver, source := method.id, target := recvType.id }
      | none => rels
    | _ => rels) s.relationships
  { s with relationships := rels }

/-- Analyzer.detectInterfaceEmbeddings: record `interface_embeds` when an
embedded entry's type name resolves to an interface element.  A nil
`embedType` pointer makes the Go code panic at `embedType.Name`. -/
def detectInterfaceEmbeddings (s : Structure) : Res Structure := do
  let rels ← (findElementsByType s.elements ElementInterface).foldlM (fun rels iface =>
    match attrMapList iface.attributes "embedded" with
    | some embedded =>
      embedded.foldlM (fun rels embed =>
        match attrTypeInfo embed "type" with
        | some none => Res.crash
        | some (some embedType) =>
          match findTypeByName s.elements embedType.name with
          | some target =>
            if target.etype == ElementInterface then
              pure (addRelIfNew rels { rtype := RelationInterfaceEmbeds, source := iface.id, target := target.id })
            else pure rels
          | none => pure rels
        | none => pure rels) rels
    | none => pure rels) s.relationships
  pure { s with relationships := rels }

/-- The direct-method part of Analyzer.typeMethods: every method element
whose (pointer-unwrapped) receiver name equals the type's name and which has
a signature map contributes `{name, signature, receiver_type_name}`. -/
def directTypeMethods (elements : List Element) (typ : Element) : List Attrs :=
  (findElementsByType elements ElementMethod).filterMap (fun method =>
    match attrTypeInfo method.attributes "receiver_type" with
    | some (some recv) =>
      let typeName := resolveTypeName recv
      if typeName == typ.name then
        match attrMap method.attributes "signature" with
        | some sig =>
          some [("name", .vStr method.name), ("signature", .vMap sig),
                ("receiver_type_name", .vStr typeName)]
        | none => none
      else none
    | _ => none)

/-- One entry of the Analyzer.interfaceMethods loop: a named entry passes
through; a nameless entry is an embedded interface (its first signature
param names it) whose methods are fetched recursively.  The recursion has no
visited set; the fuel (threaded via `interfaceMethodsRec`) models its
possible non-termination.  The loop is a right fold (an entry's own
contribution — including its panic and divergence possibilities — is
evaluated before the rest's). -/
def interfaceMethodsStep (elements : List Element)
    (interfaceMethodsRec : Element → Res (List Attrs)) (method : Attrs)
    (acc : Res (List Attrs)) : Res (List Attrs) :=
  let isNamed :=
    match attrString method "name" with
    | some name => name != ""
    | none => false
  if isNamed then do
    let restM ← acc
    pure (method :: restM)
  else
    match attrMap method "signature" with
    | some sig =>
      (match attrTypeList sig "params" with
       | some params =>
         if params.length > 0 then
           match params.head? with
           | some none => .crash
           | some (some embedType) =>
             (match findTypeByName elements embedType.name with
              | some embedded =>
                if embedded.etype == ElementInterface then do
                  let ms ← interfaceMethodsRec embedded
                  let restM ← acc
                  pure (ms ++ restM)
                else acc
              | none => acc)
           | none => acc
         else acc
       | none => acc)
    | none => acc

/-- Analyzer.interfaceMethods proper: the method-entry loop as a right fold
of `interfaceMethodsStep` over the methods list. -/
def interfaceMethods : Nat → List Element → Element → Res (List Attrs)
  | 0, _, _ => .diverge
  | fuel + 1, elements, iface =>
    match attrMapList iface.attributes "methods" with
    | none => .ok []
    | some methodList =>
      methodList.foldr (interfaceMethodsStep elements (interfaceMethods fuel elements)) (.ok [])

/-- The embedded-field step of Analyzer.typeMethods, as a right fold over
the fields (a field's own contribution — including its panic and divergence
possibilities — is evaluated before the rest's).  The `typeMethodsRec`
argument is the recursive call at the decremented fuel. -/
def typeMethodsFieldsStep (elements : List Element)
    (typeMethodsRec : Element → Res (List Attrs)) (field : Attrs)
    (acc : Res (List Attrs)) : Res (List Attrs) :=
  match attrBool field "embedded" with
  | some true =>
    (match attrTypeInfo field "type" with
     | some none => .crash
     | some (some fieldType) =>
       let typeName := resolveTypeName fieldType
       (match findTypeByName elements typeName with
        | some embedded => do
          let embeddedMethods ← typeMethodsRec embedded
          let restM ← acc
          pure (embeddedMethods.map (fun m => updateAttr m "receiver_type_name" (.vStr typeName)) ++ restM)
        | none => acc)
     | none => acc)
  | _ => acc

/-- Analyzer.typeMethods: direct methods plus, recursively, the methods of
embedded types (each tagged with the embedding type's name).  The recursion
has no visited set; the fuel models its possible non-termination.  A nil
field-type pointer makes the Go code panic at `fieldType.Name`. -/
def typeMethods : Nat → List Element → Element → Res (List Attrs)
  | 0, _, _ => .diverge
  | fuel + 1, elements, typ =>
    let direct := directTypeMethods elements typ
    match attrMapList typ.attributes "fields" with
    | none => .ok direct
    | some fields => do
      let embeddedMs ← fields.foldr (typeMethodsFieldsStep elements (typeMethods fuel elements)) (.ok [])
      pure (direct ++ embeddedMs)

/-- Go `==` on two `any` values (used for `tmethod["name"] == imethod["name"]`):
two absent values (interface nil) are equal; values of different dynamic
types are unequal; strings and bools compare by value; `*TypeInfo` pointers
compare by identity (two nils are equal; in this model two separately stored
non-nil pointers are distinct); comparing two values of the same
non-comparable dynamic type (slice or map) is a Go runtime panic. -/
def anyEq : Option AttrVal → Option AttrVal → Res Bool
  | none, none => .ok true
  | none, some _ => .ok false
  | some _, none => .ok false
  | some a, some b =>
    match a, b with
    | .vStr x, .vStr y => .ok (x == y)
    | .vBool x, .vBool y => .ok (x == y)
    | .vTypeInfo none, .vTypeInfo none => .ok true
    | .vTypeInfo _, .vTypeInfo _ => .ok false
    | .vStr _, _ => .ok false
    | _, .vStr _ => .ok false
    | .vBool _, _ => .ok false
    | _, .vBool _ => .ok false
    | .vTypeInfo _, _ => .ok false
    | _, .vTypeInfo _ => .ok false
    | .vTypeList _, .vTypeList _ => .crash
    | .vMap _, .vMap _ => .crash
    | .vMapList _, .vMapList _ => .crash
    | .vStrList _, .vStrList _ => .crash
    | _, _ => .ok false

/-- The inner search of Analyzer.typeImplementsInterface: scan the type's
methods for one whose name equals the interface method's name and whose
signature matches.  The signature lookups are unchecked Go type assertions:
a method entry without a signature map panics once the names compare equal. -/
def findMatchingMethod (imethod : Attrs) : List Attrs → Res Bool
  | [] => .ok false
  | tmethod :: rest => do
    let nameEq ← anyEq (lookupAttr tmethod "name") (lookupAttr imethod "name")
    if nameEq then
      match attrMap tmethod "signature", attrMap imethod "signature" with
      | some sig1, some sig2 =>
        if signatureMatches sig1 sig2 then .ok true
        else findMatchingMethod imethod rest
      | _, _ => .crash
    else findMatchingMethod imethod rest

/-- The outer loop of Analyzer.typeImplementsInterface: every interface
method must find a match. -/
def implementsAllMethods (tmethods : List Attrs) : List Attrs → Res Bool
  | [] => .ok true
  | imethod :: rest => do
    let found ← findMatchingMethod imethod tmethods
    if found then implementsAllMethods tmethods rest else .ok false

/-- Analyzer.typeImplementsInterface: a type with zero methods implements
nothing; otherwise every interface method needs a same-name,
signature-matching type method. -/
def typeImplementsInterface (ifaceMethods tmethods : List Attrs) : Res Bool :=
  if tmethods.isEmpty then .ok false
  else implementsAllMethods tmethods ifaceMethods

/-- The per-type inner loop of Analyzer.detectInterfaceImplementations. -/
def detectImplTypeLoop (fuel : Nat) (elements : List Element) (iface : Element)
    (im : List Attrs) : List Element → List Relationship → Res (List Relationship)
  | [], rels => .ok rels
  | typ :: rest, rels => do
    let tm ← typeMethods fuel elements typ
    let b ← typeImplementsInterface im tm
    let rels' :=
      if b then addRelIfNew rels { rtype := RelationImplements, source := typ.id, target := iface.id }
      else rels
    detectImplTypeLoop fuel elements iface im rest rels'

/-- The per-interface outer loop of Analyzer.detectInterfaceImplementations:
interfaces with an empty (full) method set are skipped. -/
def detectImplIfaceLoop (fuel : Nat) (elements : List Element) :
    List Element → List Relationship → Res (List Relationship)
  | [], rels => .ok rels
  | iface :: rest, rels => do
    let im ← interfaceMethods fuel elements iface
    if im.isEmpty then detectImplIfaceLoop fuel elements rest rels
    else do
      let rels' ← detectImplTypeLoop fuel elements iface im (findElementsByType elements ElementTypeDecl) rels
      detectImplIfaceLoop fuel elements rest rels'

/-- Analyzer.detectInterfaceImplementations. -/
def detectInterfaceImplementations (fuel : Nat) (s : Structure) : Res Structure := do
  let rels ← detectImplIfaceLoop fuel s.elements (findElementsByType s.elements ElementInterface) s.relationships
  pure { s with relationships := rels }

/-- Analyzer.detectComposition: record `embeds` for each embedded field whose
(pointer-unwrapped) type name resolves to an element.  A nil field-type
pointer makes the Go code panic at `fieldType.Name`. -/
def detectComposition (s : Structure) : Res Structure := do
  let rels ← (findElementsByType s.elements ElementTypeDecl).foldlM (fun rels typ =>
    match attrMapList typ.attributes "fields" with
    | none => pure rels
    | some fields =>
      fields.foldlM (fun rels field =>
        match attrBool field "embedded" with
        | some true =>
          (match attrTypeInfo field "type" with
           | some none => Res.crash
           | some (some fieldType) =>
             let typeName := resolveTypeName fieldType
             (match findTypeByName s.elements typeName with
              | some embedded =>
                pure (addRelIfNew rels { rtype := RelationEmbeds, source := typ.id, target := embedded.id })
              | none => pure rels)
           | none => pure rels)
        | _ => pure rels) rels) s.relationships
  pure { s with relationships := rels }

/-- Analyzer.detectPatterns: the fixed pass order (type references, method
receivers, interface embeddings, interface implementations, composition). -/
def detectPatterns (fuel : Nat) (s : Structure) : Res Structure := do
  let s1 := detectTypeReferences s
  let s2 := detectMethodReceivers s1
  let s3 ← detectInterfaceEmbeddings s2
  let s4 ← detectInterfaceImplementations fuel s3
  detectComposition s4

/-- Analyzer.Analyze (structure side): walk the tree from an empty analysis,
then run pattern detection.  The Go method returns an error only when the
argument is not a Go node or a sub-step fails; in the embedded code no
sub-step produces a Go error. -/
def AnalyzeStructure (fuel : Nat) (root : AstNode) : Res Analysis :=
  let st0 : BuildSt := { str := { elements := [], relationships := [] }, nextId := 0 }
  let res := analyzeNode root st0
  match detectPatterns fuel res.2.str with
  | .ok s => .ok { language := "go", str := s }
  | .err m => .err m
  | .crash => .crash
  | .diverge => .diverge

/-- Analyzer.Merge (structure side): nil arguments and non-Go analyses are
errors; donor package elements whose name already exists among the base's
packages are dropped; every other donor element and all donor relationships
are appended. -/
def MergeStructure (base other : Option Analysis) : Except String Analysis :=
  match base, other with
  | none, _ => .error "cannot merge nil analyses"
  | _, none => .error "cannot merge nil analyses"
  | some b, some o =>
    if b.language ≠ "go" || o.language ≠ "go" then .error "can only merge Go analyses"
    else
      let existingPackages := (b.str.elements.filter (fun e => e.etype == ElementPackage)).map Element.name
      let newElems := o.str.elements.filter (fun e =>
        !(e.etype == ElementPackage && existingPackages.contains e.name))
      .ok { language := b.language,
            str := { elements := b.str.elements ++ newElems,
                     relationships := b.str.relationships ++ o.str.relationships } }

/-! ### Metrics collector (structure side) -/

/-- Read from a Go `map[*Element]int` keyed by element identity: absent keys
read as 0. -/
def lookupCount (m : List (Nat × Int)) (k : Nat) : Int :=
  match m.find? (fun p => p.1 == k) with
  | some p => p.2
  | none => 0

/-- Write to a Go `map[*Element]int`. -/
def updateCount : List (Nat × Int) → Nat → Int → List (Nat × Int)
  | [], k, v => [(k, v)]
  | (k', w) :: rest, k, v =>
      if k' == k then (k, v) :: rest else (k', w) :: updateCount rest k v

/-- The two maps built by MetricsCollector.calculateComplexityMetrics. -/
structure DepthMaps where
  depths : List (Nat × Int)
  children : List (Nat × Int)

/-- One step of the single pass over the relationships:
`depths[rel.Target] = depths[rel.Source] + 1; children[rel.Source]++`
for `contains` relationships only. -/
def depthChildrenStep (maps : DepthMaps) (rel : Relationship) : DepthMaps :=
  if rel.rtype == RelationContains then
    { depths := updateCount maps.depths rel.target (lookupCount maps.depths rel.source + 1),
      children := updateCount maps.children rel.source (lookupCount maps.children rel.source + 1) }
  else maps

/-- The single pass over the relationship list, in insertion order. -/
def depthChildrenMaps (rels : List Relationship) : DepthMaps :=
  rels.foldl depthChildrenStep { depths := [], children := [] }

/-- Maximum of the values of a count map, starting from 0. -/
def maxVals (m : List (Nat × Int)) : Int :=
  m.foldl (fun acc p => if p.2 > acc then p.2 else acc) 0

/-- Sum of the values of a count map. -/
def sumVals (m : List (Nat × Int)) : Int :=
  m.foldl (fun acc p => acc + p.2) 0

/-- MetricsCollector.calculateComplexityMetrics: max/total of the two maps;
the averages use Go integer division and are only stored when the respective
map is non-empty. -/
def calculateComplexityMetrics (s : Structure) : List (String × Int) :=
  let maps := depthChildrenMaps s.relationships
  let l1 := [("max_depth", maxVals maps.depths)]
  let l2 :=
    if maps.depths.length > 0 then
      l1 ++ [("avg_depth", sumVals maps.depths / (maps.depths.length : Int))]
    else l1
  let l3 := l2 ++ [("max_children", maxVals maps.children)]
  if maps.children.length > 0 then
    l3 ++ [("avg_children", sumVals maps.children / (maps.children.length : Int))]
  else l3

/-- MetricsCollector.CollectMetrics: element counts by kind, relationship
counts by kind, then the complexity metrics. -/
def CollectMetrics (s : Structure) : List (String × Int) :=
  [("total_elements", (s.elements.length : Int)),
   ("packages", ((findElementsByType s.elements ElementPackage).length : Int)),
   ("types", ((findElementsByType s.elements ElementTypeDecl).length : Int)),
   ("functions", ((findElementsByType s.elements ElementFunction).length : Int)),
   ("methods", ((findElementsByType s.elements ElementMethod).length : Int)),
   ("interfaces", ((findElementsByType s.elements ElementInterface).length : Int)),
   ("variables", ((findElementsByType s.elements ElementVariable).length : Int)),
   ("contains", ((s.relationships.filter (fun r => r.rtype == RelationContains)).length : Int)),
   ("implements", ((s.relationships.filter (fun r => r.rtype == RelationImplements)).length : Int)),
   ("embeds", ((s.relationships.filter (fun r => r.rtype == RelationEmbeds)).length : Int)),
   ("interface_embeds", ((s.relationships.filter (fun r => r.rtype == RelationInterfaceEmbeds)).length : Int)),
   ("method_receiver", ((s.relationships.filter (fun r => r.rtype == RelationMethodReceiver)).length : Int)),
   ("calls", ((s.relationships.filter (fun r => r.rtype == RelationCalls)).length : Int)),
   ("references", ((s.relationships.filter (fun r => r.rtype == RelationReferences)).length : Int))]
  ++ calculateComplexityMetrics s

/-- MetricsCollector.Metric: map read with zero default. -/
def Metric (metrics : List (String × Int)) (metric : String) : Int :=
  match metrics.find? (fun p => p.1 == metric) with
  | some p => p.2
  | none => 0

/-! ### Dependency graph (internal/core/analysis/dependency) -/

/-- dependency.ModuleNode. -/
def ModuleNode : String := "module"

/-- dependency.TypeNode. -/
def TypeNode : String := "type"

/-- dependency.FunctionNode. -/
def FunctionNode : String := "function"

/-- dependency.ContractNode. -/
def ContractNode : String := "contract"

/-- dependency.VariableNode. -/
def VariableNode : String := "variable"

/-- dependency.NamespaceNode. -/
def NamespaceNode : String := "namespace"

/-- dependency.Include. -/
def Include : String := "include"

/-- dependency.Reference. -/
def Reference : String := "reference"

/-- dependency.Satisfy. -/
def Satisfy : String := "satisfy"

/-- dependency.Compose. -/
def Compose : String := "compose"

/-- dependency.Inherit. -/
def Inherit : String := "inherit"

/-- dependency.Node: a dependency-graph node.  `metadata = none` models a
nil Go map (reads yield nothing; the merge code checks for nil before
writing). -/
structure DepNode where
  id : String
  ntype : String
  name : String
  path : String
  isExternal : Bool
  metadata : Option Attrs

/-- dependency.Location. -/
structure DepLocation where
  file : String
  line : Int
  column : Int
deriving DecidableEq, Repr

/-- dependency.Dependency: a typed edge.  (The unused Metadata field of the
Go struct, never written or read by the analyzed code, is omitted.) -/
structure Dependency where
  dfrom : String
  dto : String
  dtype : String
  location : DepLocation
  isExternal : Bool
deriving DecidableEq, Repr

/-- Generic write to a Go `map[string]T`. -/
def updateAssoc {α : Type} : List (String × α) → String → α → List (String × α)
  | [], k, v => [(k, v)]
  | (k', w) :: rest, k, v =>
      if k' == k then (k, v) :: rest else (k', w) :: updateAssoc rest k v

/-- Generic read from a Go `map[string]T`. -/
def lookupAssoc {α : Type} : List (String × α) → String → Option α
  | [], _ => none
  | (k', v) :: rest, k => if k' == k then some v else lookupAssoc rest k

/-- dependency.Graph. -/
structure Graph where
  nodes : List (String × DepNode)
  dependencies : List Dependency
  directDependencies : List Dependency
  indirectDependencies : List Dependency
  externalDependencies : List (String × DepNode)
  circularDependencies : List (List String)

/-- dependency.NewGraph. -/
def NewGraph : Graph :=
  { nodes := [], dependencies := [], directDependencies := [],
    indirectDependencies := [], externalDependencies := [], circularDependencies := [] }

/-- Graph.AddNode: `g.Nodes[node.ID] = node`. -/
def Graph.addNode (g : Graph) (node : DepNode) : Graph :=
  { g with nodes := updateAssoc g.nodes node.id node }

/-- Graph.Node: lookup by id. -/
def Graph.node? (g : Graph) (id : String) : Option DepNode :=
  lookupAssoc g.nodes id

/-- Graph.AddDependency: append to Dependencies, then categorize (external
target into ExternalDependencies when the node exists; Include edges into
DirectDependencies). -/
def Graph.addDependency (g : Graph) (dep : Dependency) : Graph :=
  let g1 := { g with dependencies := g.dependencies ++ [dep] }
  if dep.isExternal then
    match g1.node? dep.dto with
    | some node => { g1 with externalDependencies := updateAssoc g1.externalDependencies dep.dto node }
    | none => g1
  else if dep.dtype == Include then
    { g1 with directDependencies := g1.directDependencies ++ [dep] }
  else g1

/-- Read a `[]map[string]any` entry from a node's (possibly nil) metadata. -/
def nodeMetaMapList (n : DepNode) (key : String) : Option (List Attrs) :=
  match n.metadata with
  | some md => attrMapList md key
  | none => none

/-! ### Go dependency analyzer (godependency.Analyzer) -/

/-- One-level pointer unwrap used by compareTypes:
`if t.Kind == "pointer" && t.ElemType != nil { t = t.ElemType }`. -/
def unwrapPointer (t : TypeInfo) : TypeInfo :=
  match t with
  | .mk k _ e _ _ _ _ _ _ =>
    if k = "pointer" then
      match e with
      | some x => x
      | none => t
    else t

/-- Analyzer.compareTypes (dependency side): unwrap one pointer level on each
side, then compare kinds; basic types compare by name, slices by element
type, maps by key and value types; all other kinds compare by kind only. -/
def compareTypes : Option TypeInfo → Option TypeInfo → Bool
  | none, none => true
  | some _, none => false
  | none, some _ => false
  | some t1, some t2 =>
    let u1 := unwrapPointer t1
    let u2 := unwrapPointer t2
    if u1.kind ≠ u2.kind then false
    else if u1.kind = "basic" then u1.name == u2.name
    else if u1.kind = "slice" then compareTypes u1.elemType u2.elemType
    else if u1.kind = "map" then
      compareTypes u1.keyType u2.keyType && compareTypes u1.valueType u2.valueType
    else true
termination_by o1 o2 => sizeOf o1 + sizeOf o2
decreasing_by
  all_goals
    have hu : ∀ t : TypeInfo, sizeOf (unwrapPointer t) ≤ sizeOf t := by
      intro t
      cases t with
      | mk k n e ky v tp ta cs b =>
        simp only [unwrapPointer]
        split
        · cases e with
          | none => exact le_refl _
          | some x => simp; omega
        · exact le_refl _
    have he : ∀ t : TypeInfo, sizeOf t.elemType < sizeOf t := by
      intro t
      cases t with
      | mk k n e ky v tp ta cs b => simp [TypeInfo.elemType]; omega
    have hk : ∀ t : TypeInfo, sizeOf t.keyType < sizeOf t := by
      intro t
      cases t with
      | mk k n e ky v tp ta cs b => simp [TypeInfo.keyType]; omega
    have hv : ∀ t : TypeInfo, sizeOf t.valueType < sizeOf t := by
      intro t
      cases t with
      | mk k n e ky v tp ta cs b => simp [TypeInfo.valueType]; omega
    have h1 := hu t1
    have h2 := hu t2
    have h3 := he (unwrapPointer t1)
    have h4 := he (unwrapPointer t2)
    have h5 := hk (unwrapPointer t1)
    have h6 := hk (unwrapPointer t2)
    have h7 := hv (unwrapPointer t1)
    have h8 := hv (unwrapPointer t2)
    have h9 : sizeOf (some t1) = 1 + sizeOf t1 := by simp
    have h10 : sizeOf (some t2) = 1 + sizeOf t2 := by simp
    simp only [SizeOf.sizeOf] at h1 h2 h3 h4 h5 h6 h7 h8 h9 h10 ⊢
    omega

/-- Analyzer.compareMethodSignatures (dependency side): pairwise compareTypes
on params and returns (no receiver handling). -/
def compareMethodSignatures (sig1 sig2 : Attrs) : Bool :=
  match attrTypeList sig1 "params", attrTypeList sig2 "params" with
  | some params1, some params2 =>
    if params1.length ≠ params2.length then false
    else if !(params1.zip params2).all (fun p => compareTypes p.1 p.2) then false
    else
      match attrTypeList sig1 "returns", attrTypeList sig2 "returns" with
      | some returns1, some returns2 =>
        if returns1.length ≠ returns2.length then false
        else (returns1.zip returns2).all (fun p => compareTypes p.1 p.2)
      | _, _ => false
  | _, _ => false

mutual

/-- The non-nil case of Analyzer.addTypeReference (dependency side): unwrap
pointer/slice/map structure; skip primitive basic leaves; otherwise add a
`reference` edge to the module-qualified name.  (Unlike the structure-side
twin, non-basic leaves also produce an edge.) -/
def depAddTypeReferenceT (source : DepNode) (pkgName : String) (pos : Position)
    (g : Graph) : TypeInfo → Graph
  | .mk kind name elemType keyType valueType _ _ _ _ =>
    if kind = "pointer" && elemType.isSome then
      depAddTypeReference source pkgName pos g elemType
    else if kind = "slice" && elemType.isSome then
      depAddTypeReference source pkgName pos g elemType
    else if kind = "map" then
      depAddTypeReference source pkgName pos (depAddTypeReference source pkgName pos g keyType) valueType
    else if kind = "basic" && primitiveTypes.contains name then g
    else
      g.addDependency { dfrom := source.id, dto := pkgName ++ "." ++ name,
                        dtype := Reference,
                        location := { file := source.path, line := pos.line, column := pos.column },
                        isExternal := false }
termination_by structural t => t

/-- Analyzer.addTypeReference (dependency side) on a nullable pointer: nil
contributes nothing (the source's nil guards on key/value types coincide
with this check). -/
def depAddTypeReference (source : DepNode) (pkgName : String) (pos : Position)
    (g : Graph) : Option TypeInfo → Graph
  | none => g
  | some t => depAddTypeReferenceT source pkgName pos g t

end

/-- The interface-methods check of Analyzer.analyzeType: every (named)
interface method needs a struct method with a comparing signature; the
interface method's signature lookup is an unchecked Go type assertion. -/
def satisfyCheck (structMethods : List (String × Attrs)) : List Attrs → Res Bool
  | [] => .ok true
  | ifaceMethod :: rest =>
    match attrString ifaceMethod "name" with
    | none => satisfyCheck structMethods rest
    | some n =>
      match lookupAssoc structMethods n with
      | none => .ok false
      | some structMethod =>
        match attrMap ifaceMethod "signature" with
        | none => Res.crash
        | some isig =>
          if compareMethodSignatures structMethod isig then satisfyCheck structMethods rest
          else .ok false

/-- The embedded-interface expansion of Analyzer.analyzeType: the contract
node's own metadata methods plus those of interfaces named in its `embedded`
metadata (one and two levels deep).  A nil embedded type pointer makes the Go
code panic at `embeddedType.Name`. -/
def allIfaceMethodsOf (g : Graph) (pkgName : String) (n : DepNode)
    (ifaceMethods : List Attrs) : Res (List Attrs) :=
  match nodeMetaMapList n "embedded" with
  | none => .ok ifaceMethods
  | some embedded =>
    embedded.foldlM (fun acc embeddedIface =>
      match attrTypeInfo embeddedIface "type" with
      | some none => Res.crash
      | some (some embeddedType) =>
        let embeddedID := pkgName ++ "." ++ embeddedType.name
        (match g.node? embeddedID with
         | some embeddedNode =>
           let acc1 :=
             match nodeMetaMapList embeddedNode "methods" with
             | some ms => acc ++ ms
             | none => acc
           (match nodeMetaMapList embeddedNode "embedded" with
            | some embedded2 =>
              embedded2.foldlM (fun acc2 e2 =>
                match attrTypeInfo e2 "type" with
                | some none => Res.crash
                | some (some t2) =>
                  (match g.node? (pkgName ++ "." ++ t2.name) with
                   | some n2 =>
                     (match nodeMetaMapList n2 "methods" with
                      | some ms2 => pure (acc2 ++ ms2)
                      | none => pure acc2)
                   | none => pure acc2)
                | none => pure acc2) acc1
            | none => pure acc1)
         | none => pure acc)
      | none => pure acc) ifaceMethods

/-- The satisfy pass of Analyzer.analyzeType: for every contract node in the
graph, check the (expanded) interface method set against the struct's method
map and add a `satisfy` edge on success; the `file_path` read in the edge
literal is an unchecked Go type assertion. -/
def satisfyPass (node : AstNode) (pkgName : String) (typeNodeId : String)
    (structMethods : List (String × Attrs)) (g : Graph) : Res Graph :=
  g.nodes.foldlM (fun gAcc p =>
    let n := p.2
    if n.ntype == ContractNode then
      match nodeMetaMapList n "methods" with
      | none => pure gAcc
      | some ifaceMethods => do
        let allIface ← allIfaceMethodsOf g pkgName n ifaceMethods
        let implementsAll ← satisfyCheck structMethods allIface
        if implementsAll then
          match attrString node.attributes "file_path" with
          | none => Res.crash
          | some file =>
            pure (gAcc.addDependency
              { dfrom := typeNodeId, dto := n.id, dtype := Satisfy,
                location := { file := file, line := node.position.line, column := node.position.column },
                isExternal := false })
        else pure gAcc
    else pure gAcc) g

/-- The struct-method map of Analyzer.analyzeType: named methods with
signatures, later entries overwriting earlier ones of the same name. -/
def structMethodMap (methods : List Attrs) : List (String × Attrs) :=
  methods.foldl (fun sm method =>
    match attrString method "name" with
    | some n =>
      (match attrMap method "signature" with
       | some sig => updateAssoc sm n sig
       | none => sm)
    | none => sm) []

/-- The embedded-type extension of the struct-method map in
Analyzer.analyzeType: methods stored in the metadata of already-known
embedded type nodes are merged in (overwriting same names).  A nil field
type pointer makes the Go code panic at `fieldType.Name`. -/
def structMethodsWithEmbedded (node : AstNode) (pkgName : String) (g : Graph)
    (sm0 : List (String × Attrs)) : Res (List (String × Attrs)) :=
  match attrMapList node.attributes "fields" with
  | none => .ok sm0
  | some fields =>
    fields.foldlM (fun sm field =>
      match attrBool field "embedded" with
      | some true =>
        (match attrTypeInfo field "type" with
         | some none => Res.crash
         | some (some fieldType) =>
           let typeName := resolveTypeName fieldType
           let embeddedID := pkgName ++ "." ++ typeName
           (match g.node? embeddedID with
            | some embeddedNode =>
              (match nodeMetaMapList embeddedNode "methods" with
               | some embeddedMethods =>
                 pure (embeddedMethods.foldl (fun sm em =>
                   match attrString em "name" with
                   | some n =>
                     (match attrMap em "signature" with
                      | some sig => updateAssoc sm n sig
                      | none => sm)
                   | none => sm) sm)
               | none => pure sm)
            | none => pure sm)
         | none => pure sm)
      | _ => pure sm) sm0

/-- Analyzer.analyzeType (dependency side): create the type node (methods in
metadata), process fields (embedded fields yield `compose` edges with an
unchecked `file_path` assertion, other fields yield type references), then
run the interface-satisfaction pass when the node carries methods. -/
def depAnalyzeType (node : AstNode) (pkgName : String) (g : Graph) : Res Graph :=
  match attrString node.attributes "name" with
  | none => .ok g
  | some name =>
    let metadata :=
      match attrMapList node.attributes "methods" with
      | some ms => [("methods", AttrVal.vMapList ms)]
      | none => []
    let typeNode : DepNode :=
      { id := pkgName ++ "." ++ name, ntype := TypeNode, name := name,
        path := pkgName, isExternal := false, metadata := some metadata }
    let g := g.addNode typeNode
    do
      let gFields ←
        match attrMapList node.attributes "fields" with
        | none => pure g
        | some fields =>
          fields.foldlM (fun gAcc field =>
            match attrTypeInfo field "type" with
            | none => pure gAcc
            | some fieldType =>
              match attrBool field "embedded" with
              | some true =>
                (match fieldType with
                 | none => Res.crash
                 | some ft =>
                   let embeddedID := pkgName ++ "." ++ resolveTypeName ft
                   match attrString node.attributes "file_path" with
                   | none => Res.crash
                   | some file =>
                     pure (gAcc.addDependency
                       { dfrom := typeNode.id, dto := embeddedID, dtype := Compose,
                         location := { file := file, line := node.position.line,
                                       column := node.position.column },
                         isExternal := false }))
              | _ => pure (depAddTypeReference typeNode pkgName node.position gAcc fieldType)) g
      match attrMapList node.attributes "methods" with
      | none => pure gFields
      | some methods => do
        let sm ← structMethodsWithEmbedded node pkgName gFields (structMethodMap methods)
        satisfyPass node pkgName typeNode.id sm gFields

/-- Analyzer.analyzeInterface (dependency side): create the contract node
(methods in metadata), add `inherit` edges for embedded interfaces (nil
embedded type pointer or missing `file_path`: Go panic), then type
references for method signatures. -/
def depAnalyzeInterface (node : AstNode) (pkgName : String) (g : Graph) : Res Graph :=
  match attrString node.attributes "name" with
  | none => .ok g
  | some name =>
    let metadata :=
      match attrMapList node.attributes "methods" with
      | some ms => [("methods", AttrVal.vMapList ms)]
      | none => []
    let ifaceNode : DepNode :=
      { id := pkgName ++ "." ++ name, ntype := ContractNode, name := name,
        path := pkgName, isExternal := false, metadata := some metadata }
    let g := g.addNode ifaceNode
    do
      let g1 ←
        match attrMapList node.attributes "embedded" with
        | none => pure g
        | some embedded =>
          embedded.foldlM (fun gAcc embed =>
            match attrTypeInfo embed "type" with
            | some none => Res.crash
            | some (some embedType) =>
              (match attrString node.attributes "file_path" with
               | none => Res.crash
               | some file =>
                 pure (gAcc.addDependency
                   { dfrom := ifaceNode.id, dto := pkgName ++ "." ++ embedType.name,
                     dtype := Inherit,
                     location := { file := file, line := node.position.line,
                                   column := node.position.column },
                     isExternal := false }))
            | none => pure gAcc) g
      match attrMapList node.attributes "methods" with
      | none => pure g1
      | some methods =>
        pure (methods.foldl (fun gAcc method =>
          match attrMap method "signature" with
          | some sig =>
            let gAcc :=
              match attrTypeList sig "params" with
              | some params => params.foldl (fun gAcc param => depAddTypeReference ifaceNode pkgName node.position gAcc param) gAcc
              | none => gAcc
            (match attrTypeList sig "returns" with
             | some returns => returns.foldl (fun gAcc ret => depAddTypeReference ifaceNode pkgName node.position gAcc ret) gAcc
             | none => gAcc)
          | none => gAcc) g1)

/-- Analyzer.analyzeFunction (dependency side): build the (receiver-qualified
for methods) function id, add the function node, then signature type
references and body-level references (`package` selectors become `reference`
edges whose location file is the function node's Path). -/
def depAnalyzeFunction (node : AstNode) (pkgName : String) (g : Graph) : Res Graph :=
  match attrString node.attributes "name" with
  | none => .ok g
  | some name => do
    let funcID ←
      if node.nodeType = "Method" then
        match attrTypeInfo node.attributes "receiver_type" with
        | some none => Res.crash
        | some (some recv) => pure (pkgName ++ "." ++ resolveTypeName recv ++ "." ++ name)
        | none => pure (pkgName ++ "." ++ name)
      else pure (pkgName ++ "." ++ name)
    let funcNode : DepNode :=
      { id := funcID, ntype := FunctionNode, name := name, path := pkgName,
        isExternal := false, metadata := none }
    let g := g.addNode funcNode
    let g1 :=
      match attrMap node.attributes "signature" with
      | some sig =>
        let gA :=
          if node.nodeType = "Method" then
            match attrTypeInfo sig "receiver_type" with
            | some recv => depAddTypeReference funcNode pkgName node.position g recv
            | none => g
          else g
        let gB :=
          match attrTypeList sig "params" with
          | some params => params.foldl (fun gAcc param => depAddTypeReference funcNode pkgName node.position gAcc param) gA
          | none => gA
        (match attrTypeList sig "returns" with
         | some returns => returns.foldl (fun gAcc ret => depAddTypeReference funcNode pkgName node.position gAcc ret) gB
         | none => gB)
      | none => g
    match attrMapList node.attributes "body" with
    | none => pure g1
    | some body =>
      body.foldlM (fun gAcc stmt =>
        match attrMapList stmt "references" with
        | none => pure gAcc
        | some refs =>
          refs.foldlM (fun gAcc ref =>
            match attrTypeInfo ref "type" with
            | some none => Res.crash
            | some (some refType) =>
              if refType.kind = "package" then
                pure (gAcc.addDependency
                  { dfrom := funcNode.id, dto := refType.name, dtype := Reference,
                    location := { file := funcNode.path, line := node.position.line,
                                  column := node.position.column },
                    isExternal := false })
              else pure (depAddTypeReference funcNode pkgName node.position gAcc (some refType))
            | none => pure gAcc) gAcc) g1

mutual

/-- Analyzer.analyzeNode (dependency side): dispatch on the node kind.
Imports create an external module node and an `include` edge (the
`file_path` read in the edge literal is an unchecked Go type assertion);
blocks recurse into their children; other kinds are ignored. -/
def depAnalyzeNode : AstNode → String → Graph → Res Graph
  | .mk pos ntype children attrs, pkgName, g =>
    let node : AstNode := .mk pos ntype children attrs
    if ntype = "Import" then
      match attrString attrs "path" with
      | none => .ok g
      | some path =>
        let importNode : DepNode :=
          { id := path, ntype := ModuleNode, name := path, path := path,
            isExternal := true, metadata := none }
        let g := g.addNode importNode
        match attrString attrs "file_path" with
        | none => Res.crash
        | some file =>
          .ok (g.addDependency
            { dfrom := pkgName, dto := path, dtype := Include,
              location := { file := file, line := pos.line, column := pos.column },
              isExternal := true })
    else if ntype = "Type" then depAnalyzeType node pkgName g
    else if ntype = "Interface" then depAnalyzeInterface node pkgName g
    else if ntype = "Function" || ntype = "Method" then depAnalyzeFunction node pkgName g
    else if ntype = "Block" then depAnalyzeChildren children pkgName g
    else .ok g

/-- The recursive child traversal of blocks (and of the module root). -/
def depAnalyzeChildren : List AstNode → String → Graph → Res Graph
  | [], _, g => .ok g
  | child :: rest, pkgName, g => do
    let g1 ← depAnalyzeNode child pkgName g
    depAnalyzeChildren rest pkgName g1

end

/-- Analyzer.Analyze (dependency side): reset to a fresh graph; fail with a
Go error when the module node has no `package_name` string; otherwise add
the package node and process all children. -/
def DepAnalyze (root : AstNode) : Res Graph :=
  let g := NewGraph
  match attrString root.attributes "package_name" with
  | none => .err "missing package name in module node"
  | some pkgName =>
    let pkgNode : DepNode :=
      { id := pkgName, ntype := ModuleNode, name := pkgName, path := pkgName,
        isExternal := false, metadata := none }
    let g := g.addNode pkgNode
    depAnalyzeChildren root.children pkgName g

/-! ### Dependency graph merge (Analyzer.Merge, dependency side) -/

/-- `maps.Copy(dst, src)`: every binding of src written into dst. -/
def mapsCopy (dst src : Attrs) : Attrs :=
  src.foldl (fun d p => updateAttr d p.1 p.2) dst

/-- The `from:to:type` existence key used by the merge. -/
def depKey (dep : Dependency) : String :=
  dep.dfrom ++ ":" ++ dep.dto ++ ":" ++ dep.dtype

/-- A nil Go map read as empty (the merge treats nil metadata this way). -/
def mdOrEmpty : Option Attrs → Attrs
  | none => []
  | some md => md

/-- The per-node result of the node-merge phase of Analyzer.Merge: an id
already present keeps the existing node with metadata additively updated
(donor bindings win) and the external flag OR-ed; a new id is deep-copied in
with a fresh metadata map. -/
def mergeOneNode (cur : Option DepNode) (node : DepNode) : DepNode :=
  match cur with
  | some existing =>
    { existing with metadata := some (mapsCopy (mdOrEmpty existing.metadata) (mdOrEmpty node.metadata)), isExternal := existing.isExternal || node.isExternal }
  | none => { node with metadata := some (mapsCopy [] (mdOrEmpty node.metadata)) }

/-- One donor-node step of the node-merge phase.  (Go mutates the existing
node in place or calls AddNode; both amount to storing the merged node under
the donor node's id.) -/
def mergeNodesStep (g : Graph) (p : String × DepNode) : Graph :=
  { g with nodes := updateAssoc g.nodes p.2.id (mergeOneNode (g.node? p.2.id) p.2) }

/-- The node-merge phase of Analyzer.Merge. -/
def mergeNodes (receiver : Graph) (donorNodes : List (String × DepNode)) : Graph :=
  donorNodes.foldl mergeNodesStep receiver

/-- One donor-dependency step of Analyzer.Merge: skip when either endpoint
is missing from the node-merged receiver `g1` or when the `from:to:type` key
is in the (pre-built, never updated) existence index. -/
def depMergeStep (g1 : Graph) (existingDeps : List String) (g : Graph) (dep : Dependency) : Graph :=
  if (g1.node? dep.dfrom).isNone then g
  else if (g1.node? dep.dto).isNone then g
  else if existingDeps.contains (depKey dep) then g
  else
    g.addDependency { dfrom := dep.dfrom, dto := dep.dto, dtype := dep.dtype,
                      isExternal := dep.isExternal, location := dep.location }

/-- Analyzer.Merge (dependency side): merge donor nodes first; then, with an
existence index built once from the receiver's pre-merge dependencies, copy
every donor dependency whose endpoints both exist in the (node-merged)
receiver and whose `from:to:type` key is not in the index. -/
def DepMerge (receiver donor : Graph) : Graph :=
  let g1 := mergeNodes receiver donor.nodes
  donor.dependencies.foldl (depMergeStep g1 (receiver.dependencies.map depKey)) g1

/-! ### Cycle detection.

The Graph method `FindCircularDependencies` is declared in the dependency
Analyzer interface and called through the Go analyzer wrapper, but the Graph
implementation itself is not among the provided sources; the definitions
below are modelled from the spec (§4.5, cycle detection). -/

/-- Modelled from the spec: strict lexicographic comparison of the character
sequences of two node ids. -/
def charListLt : List Char → List Char → Bool
  | [], [] => false
  | [], _ :: _ => true
  | _ :: _, [] => false
  | c :: cs, d :: ds =>
    if c.toNat < d.toNat then true
    else if d.toNat < c.toNat then false
    else charListLt cs ds

/-- Modelled from the spec: strict order on node ids. -/
def strLtB (a b : String) : Bool :=
  charListLt a.data b.data

/-- Modelled from the spec: lexicographic comparison of node-id sequences,
used to pick the smallest rotation of a cycle ring. -/
def lexLeList : List String → List String → Bool
  | [], _ => true
  | _ :: _, [] => false
  | a :: xs, b :: ys => if strLtB a b then true else if strLtB b a then false else lexLeList xs ys

/-- Modelled from the spec: all rotations of a cycle, treated as a ring. -/
def rotations (c : List String) : List (List String) :=
  (List.range c.length).map (fun i => c.drop i ++ c.take i)

/-- Modelled from the spec: a discovered cycle is normalized to its
lexicographically smallest rotation. -/
def normalizeCycle (c : List String) : List String :=
  match rotations c with
  | [] => []
  | r :: rs => rs.foldl (fun best cand =>
      if lexLeList cand best && !lexLeList best cand then cand else best) r

/-- Modelled from the spec: the normalized sequence joined into a single
deduplication key. -/
def cycleKey (c : List String) : String :=
  String.intercalate "->" c

/-- DFS state: the visited set and the discovered (not yet deduplicated)
cycles, in discovery order. -/
structure DfsSt where
  visited : List String
  raw : List (List String)

/-- Modelled from the spec: DFS maintaining a current-path stack; an edge to
a node already on the path emits the path suffix from that node's first
occurrence through the current node; an edge to an already-visited node off
the path is skipped; otherwise the DFS descends.  Passing the path by value
models the required clearing on backtrack.  The fuel only bounds the
recursion depth, which never exceeds the number of distinct ids reachable. -/
def dfsVisit (g : Graph) : Nat → String → List String → DfsSt → DfsSt
  | 0, _, _, st => st
  | fuel + 1, v, path, st =>
    let st1 : DfsSt := { st with visited := v :: st.visited }
    let path1 := path ++ [v]
    (g.dependencies.filter (fun d => d.dfrom == v)).foldl (fun st2 d =>
      if path1.contains d.dto then
        { st2 with raw := st2.raw ++ [path1.dropWhile (fun x => x ≠ d.dto)] }
      else if st2.visited.contains d.dto then st2
      else dfsVisit g fuel d.dto path1 st2) st1

/-- Modelled from the spec: DFS from every unvisited node.  The `order`
parameter is the iteration order of the graph's node map (Go map iteration
order is unspecified). -/
def dfsAll (g : Graph) (order : List String) : List (List String) :=
  (order.foldl (fun (st : DfsSt) v =>
    if st.visited.contains v then st
    else dfsVisit g (g.nodes.length + g.dependencies.length + 1) v [] st)
    { visited := [], raw := [] }).raw

/-- Modelled from the spec: normalize each discovered cycle and keep it only
when its joined key is new. -/
def dedupStep (acc : List (List String)) (c : List String) : List (List String) :=
  if acc.any (fun c' => cycleKey c' == cycleKey (normalizeCycle c)) then acc
  else acc ++ [normalizeCycle c]

/-- Modelled from the spec: deduplication of the discovered cycles via the
normalized joined key. -/
def dedupCycles (raw : List (List String)) : List (List String) :=
  raw.foldl dedupStep []

/-- Modelled from the spec: Graph.FindCircularDependencies — DFS from every
unvisited node, then normalization and deduplication of the discovered
cycles. -/
def FindCircularDependencies (g : Graph) (order : List String) : List (List String) :=
  dedupCycles (dfsAll g order)

/-! ### Concrete inputs used by the theorems -/

/-- An arbitrary source position. -/
def posA : Position := ⟨1, 1, 0⟩

/-- `byte`. -/
def byteTI : TypeInfo := basicTI "basic" "byte"

/-- `[]byte`. -/
def sliceByteTI : TypeInfo := elemTI "slice" byteTI

/-- `int`. -/
def intTI : TypeInfo := basicTI "basic" "int"

/-- `error`. -/
def errorTI : TypeInfo := basicTI "basic" "error"

/-- The named type `Writer` as a field/parameter type. -/
def writerNameTI : TypeInfo := basicTI "basic" "Writer"

/-- The named type `Document`. -/
def documentNameTI : TypeInfo := basicTI "basic" "Document"

/-- `*Document` (pointer receiver). -/
def ptrDocumentTI : TypeInfo := elemTI "pointer" documentNameTI

/-- `string`. -/
def stringTI : TypeInfo := basicTI "basic" "string"

/-- The signature `([]byte) (int, error)` of `Write`, as the parser stores
it: a map with params and returns only. -/
def writeSig : Attrs :=
  [("params", .vTypeList [some sliceByteTI]), ("returns", .vTypeList [some intTI, some errorTI])]

/-- `type Writer interface { Write(data []byte) (int, error) }`. -/
def writerIfaceNode : AstNode := .mk posA "Interface" []
  [("name", .vStr "Writer"), ("is_exported", .vBool true), ("file_path", .vStr "testdata/sample.go"),
   ("methods", .vMapList [[("name", .vStr "Write"), ("signature", .vMap writeSig)]]),
   ("embedded", .vMapList [])]

/-- `type Document struct { content []byte; writer Writer }` with its method
table (the parser attaches declared methods to the type node). -/
def documentTypeNode : AstNode := .mk posA "Type" []
  [("name", .vStr "Document"), ("is_exported", .vBool true), ("file_path", .vStr "testdata/sample.go"),
   ("fields", .vMapList
      [[("name", .vStr "content"), ("type", .vTypeInfo (some sliceByteTI)), ("embedded", .vBool false)],
       [("name", .vStr "writer"), ("type", .vTypeInfo (some writerNameTI)), ("embedded", .vBool false)]]),
   ("underlying_type", .vStr "struct"),
   ("methods", .vMapList [[("name", .vStr "Write"), ("signature", .vMap writeSig)]])]

/-- `type JSONDocument struct { Document; format string }`. -/
def jsonDocumentTypeNode : AstNode := .mk posA "Type" []
  [("name", .vStr "JSONDocument"), ("is_exported", .vBool true), ("file_path", .vStr "testdata/sample.go"),
   ("fields", .vMapList
      [[("name", .vStr "Document"), ("type", .vTypeInfo (some documentNameTI)), ("embedded", .vBool true)],
       [("name", .vStr "format"), ("type", .vTypeInfo (some stringTI)), ("embedded", .vBool false)]]),
   ("underlying_type", .vStr "struct")]

/-- `func (d *Document) Write(data []byte) (int, error)`. -/
def writeMethodNode : AstNode := .mk posA "Method" []
  [("name", .vStr "Write"), ("is_exported", .vBool true), ("file_path", .vStr "testdata/sample.go"),
   ("signature", .vMap writeSig), ("receiver_type", .vTypeInfo (some ptrDocumentTI))]

/-- The translation unit of the Writer/Document/JSONDocument scenario. -/
def sampleTree : AstNode := .mk posA "Module"
  [writerIfaceNode, documentTypeNode, jsonDocumentTypeNode, writeMethodNode]
  [("package_name", .vStr "testdata"), ("file_path", .vStr "testdata/sample.go"),
   ("dependencies", .vStrList [])]

/-- Extracts the analysis from a successful result (used to state concrete
evaluation facts without an existential). -/
def okAnalysis : Res Analysis → Analysis
  | .ok m => m
  | _ => ⟨"", ⟨[], []⟩⟩

/-- Extracts the graph from a successful dependency analysis (used to state
concrete evaluation facts without an existential). -/
def okGraph : Res Graph → Graph
  | .ok g => g
  | _ => NewGraph

/-- Extracts the analysis from a successful structure merge. -/
def okMerged : Except String Analysis → Analysis
  | .ok m => m
  | .error _ => ⟨"", ⟨[], []⟩⟩

/-- Extracts the structure from a successful detection pass. -/
def okStructure : Res Structure → Structure
  | .ok s => s
  | _ => ⟨[], []⟩

/-- Checks (by element names) that the analysis contains a relationship. -/
def hasRelByName (m : Analysis) (kind srcName tgtName : String) : Bool :=
  m.str.relationships.any (fun r =>
    r.rtype == kind &&
    m.str.elements.any (fun e => e.id == r.source && e.name == srcName) &&
    m.str.elements.any (fun e => e.id == r.target && e.name == tgtName))

/-- `type Any interface{}`: an interface with an empty method set. -/
def emptyIfaceNode : AstNode := .mk posA "Interface" []
  [("name", .vStr "Any"), ("is_exported", .vBool true), ("file_path", .vStr "a.go"),
   ("methods", .vMapList []), ("embedded", .vMapList [])]

/-- `type T struct{}`. -/
def plainTypeNodeT : AstNode := .mk posA "Type" []
  [("name", .vStr "T"), ("is_exported", .vBool true), ("file_path", .vStr "a.go"),
   ("fields", .vMapList []), ("underlying_type", .vStr "struct")]

/-- `func (t T) M()`. -/
def methodNodeMT : AstNode := .mk posA "Method" []
  [("name", .vStr "M"), ("is_exported", .vBool true), ("file_path", .vStr "a.go"),
   ("signature", .vMap [("params", .vTypeList []), ("returns", .vTypeList [])]),
   ("receiver_type", .vTypeInfo (some (basicTI "basic" "T")))]

/-- A unit with an empty interface and a type that has a method. -/
def emptyIfaceTree : AstNode := .mk posA "Module" [emptyIfaceNode, plainTypeNodeT, methodNodeMT]
  [("package_name", .vStr "p"), ("file_path", .vStr "a.go"), ("dependencies", .vStrList [])]

/-- `chan int`. -/
def chanIntTI : TypeInfo := elemTI "chan" intTI

/-- `chan string`. -/
def chanStringTI : TypeInfo := elemTI "chan" stringTI

/-- `type Runner interface { F(c chan int) }`. -/
def chanIfaceNode : AstNode := .mk posA "Interface" []
  [("name", .vStr "Runner"), ("is_exported", .vBool true), ("file_path", .vStr "b.go"),
   ("methods", .vMapList [[("name", .vStr "F"),
     ("signature", .vMap [("params", .vTypeList [some chanIntTI]), ("returns", .vTypeList [])])]]),
   ("embedded", .vMapList [])]

/-- `type U struct{}`. -/
def plainTypeNodeU : AstNode := .mk posA "Type" []
  [("name", .vStr "U"), ("is_exported", .vBool true), ("file_path", .vStr "b.go"),
   ("fields", .vMapList []), ("underlying_type", .vStr "struct")]

/-- `func (u U) F(c chan string)`: the parameter type differs from the
interface's `chan int` in its element type. -/
def chanMethodNode : AstNode := .mk posA "Method" []
  [("name", .vStr "F"), ("is_exported", .vBool true), ("file_path", .vStr "b.go"),
   ("signature", .vMap [("params", .vTypeList [some chanStringTI]), ("returns", .vTypeList [])]),
   ("receiver_type", .vTypeInfo (some (basicTI "basic" "U")))]

/-- A unit where the only candidate method's parameter list differs from the
interface's in a channel element type. -/
def chanTree : AstNode := .mk posA "Module" [chanIfaceNode, plainTypeNodeU, chanMethodNode]
  [("package_name", .vStr "q"), ("file_path", .vStr "b.go"), ("dependencies", .vStrList [])]

/-- `type T struct { a U; b U }`: two fields of the same named type. -/
def twoFieldTypeNode : AstNode := .mk posA "Type" []
  [("name", .vStr "T"), ("is_exported", .vBool true), ("file_path", .vStr "c.go"),
   ("fields", .vMapList
      [[("name", .vStr "a"), ("type", .vTypeInfo (some (basicTI "basic" "U"))), ("embedded", .vBool false)],
       [("name", .vStr "b"), ("type", .vTypeInfo (some (basicTI "basic" "U"))), ("embedded", .vBool false)]]),
   ("underlying_type", .vStr "struct")]

/-- A unit whose dependency analysis inserts the same reference edge twice. -/
def twoFieldTree : AstNode := .mk posA "Module" [twoFieldTypeNode]
  [("package_name", .vStr "main"), ("file_path", .vStr "c.go"), ("dependencies", .vStrList [])]

/-- An import node that carries a path but no `file_path` attribute. -/
def importNoFileNode : AstNode := .mk posA "Import" [] [("path", .vStr "fmt")]

/-- A unit whose import node lacks the `file_path` attribute. -/
def importNoFileTree : AstNode := .mk posA "Module" [importNoFileNode]
  [("package_name", .vStr "main"), ("file_path", .vStr "d.go"), ("dependencies", .vStrList ["fmt"])]

/-- A module node without any naming attribute, with one type child. -/
def noPkgNameTree : AstNode := .mk posA "Module" [plainTypeNodeT] [("file_path", .vStr "e.go")]

/-- Dependency-graph node X. -/
def depNodeX : DepNode :=
  { id := "X", ntype := ModuleNode, name := "X", path := "X", isExternal := false, metadata := none }

/-- Dependency-graph node Y. -/
def depNodeY : DepNode :=
  { id := "Y", ntype := ModuleNode, name := "Y", path := "Y", isExternal := false, metadata := none }

/-- The edge X→Y. -/
def depXY : Dependency :=
  { dfrom := "X", dto := "Y", dtype := Reference,
    location := { file := "f.go", line := 1, column := 1 }, isExternal := false }

/-- A donor graph holding nodes X and Y and the edge X→Y. -/
def donorXY : Graph := ((NewGraph.addNode depNodeX).addNode depNodeY).addDependency depXY

/-- A module-level dependency node. -/
def cycNode (s : String) : DepNode :=
  { id := s, ntype := ModuleNode, name := s, path := s, isExternal := false, metadata := none }

/-- A module-level include edge. -/
def cycEdge (a b : String) : Dependency :=
  { dfrom := a, dto := b, dtype := Include,
    location := { file := "g.go", line := 1, column := 1 }, isExternal := false }

/-- The three-node ring A→B→C→A. -/
def ringGraph : Graph :=
  ((((((NewGraph.addNode (cycNode "A")).addNode (cycNode "B")).addNode (cycNode "C")).addDependency
      (cycEdge "A" "B")).addDependency (cycEdge "B" "C")).addDependency (cycEdge "C" "A"))

/-- The spec-side reading of "T's full method set contains a method of the
same name whose signature matches" for one interface method entry: some type
method entry has the same (Go `any`-compared) name and both entries carry
signature maps that match under the analyzer's signature comparison. -/
def specHasMatch (tm : List Attrs) (ime : Attrs) : Prop :=
  ∃ tme ∈ tm, anyEq (lookupAttr tme "name") (lookupAttr ime "name") = .ok true ∧
    ∃ sig1 sig2, attrMap tme "signature" = some sig1 ∧ attrMap ime "signature" = some sig2 ∧
      signatureMatches sig1 sig2 = true

/-- The spec-side satisfaction predicate of the (amended) claim C1: the
type's full method set is non-empty and every method of the interface's full
method set has a match. -/
def specImplements (im tm : List Attrs) : Prop :=
  tm ≠ [] ∧ ∀ ime ∈ im, specHasMatch tm ime

/-- A base analysis: package `a` only. -/
def tinyBase : Analysis :=
  ⟨"go", ⟨[⟨0, ElementPackage, "a", []⟩], []⟩⟩

/-- A donor analysis: package `a` (duplicate name) plus a type and a
relationship. -/
def tinyDonor : Analysis :=
  ⟨"go", ⟨[⟨0, ElementPackage, "a", []⟩, ⟨1, ElementTypeDecl, "T", []⟩],
          [⟨RelationContains, 0, 1⟩]⟩⟩

/-- An analysis carrying a non-Go language tag (not constructible through
NewAnalysis; used to exercise the language check). -/
def pythonAnalysis : Analysis :=
  ⟨"python", ⟨[], []⟩⟩

/-- `type A struct { B }` as a structure-model element. -/
def cycElemA : Element :=
  ⟨1, ElementTypeDecl, "A",
    [("name", .vStr "A"),
     ("fields", .vMapList [[("name", .vStr "B"), ("type", .vTypeInfo (some (basicTI "basic" "B"))), ("embedded", .vBool true)]])]⟩

/-- `type B struct { A }` as a structure-model element. -/
def cycElemB : Element :=
  ⟨2, ElementTypeDecl, "B",
    [("name", .vStr "B"),
     ("fields", .vMapList [[("name", .vStr "A"), ("type", .vTypeInfo (some (basicTI "basic" "A"))), ("embedded", .vBool true)]])]⟩

/-- Elements for a mutual embedding cycle: `type A struct { B }` and
`type B struct { A }` (legal Go when the fields are pointers; the analyzer
resolves the pointer to the same named element either way). -/
def cyclicElems : List Element :=
  [⟨0, ElementPackage, "p", []⟩, cycElemA, cycElemB]

/-- `interface X { X }` in the nameless-method-entry representation read by
interfaceMethods: a methods entry without a name whose first signature
parameter names the embedded interface. -/
def cycIfaceX : Element :=
  ⟨1, ElementInterface, "X",
    [("name", .vStr "X"),
     ("methods", .vMapList [[("signature", .vMap [("params", .vTypeList [some (basicTI "basic" "X")])])]])]⟩

/-- A model whose only interface embeds itself. -/
def cyclicIfaceElems : List Element := [cycIfaceX]

/-- A field that the typeMethods embedded-field step skips: not an embedded
field, no (or mistyped) field-type attribute, or an unresolvable type name. -/
def fieldSkipped (elements : List Element) (f : Attrs) : Prop :=
  attrBool f "embedded" ≠ some true ∨ attrTypeInfo f "type" = none ∨
  (∃ ft, attrTypeInfo f "type" = some (some ft) ∧
    findTypeByName elements (resolveTypeName ft) = none)

/-- A set of type elements each of which, after some skipped fields, embeds
another member of the set: the shape on which the Go typeMethods recursion
(no visited set, no depth bound) cannot terminate. -/
def cyclicEmbedding (elements : List Element) (cyc : List Element) : Prop :=
  ∀ t ∈ cyc, ∃ fields pre w post,
    attrMapList t.attributes "fields" = some fields ∧
    fields = pre ++ w :: post ∧
    (∀ f ∈ pre, fieldSkipped elements f) ∧
    ∃ ft t', attrBool w "embedded" = some true ∧
      attrTypeInfo w "type" = some (some ft) ∧
      findTypeByName elements (resolveTypeName ft) = some t' ∧ t' ∈ cyc

/-- A methods entry whose interfaceMethods step neither panics nor descends:
a named method, or an embedded entry whose signature/params are missing or
whose first parameter does not resolve to an interface. -/
def imethodBenign (elements : List Element) (m : Attrs) : Prop :=
  (∃ name, attrString m "name" = some name ∧ name ≠ "") ∨
  attrMap m "signature" = none ∨
  (∃ sig, attrMap m "signature" = some sig ∧
    (attrTypeList sig "params" = none ∨
     attrTypeList sig "params" = some [] ∨
     (∃ params et, attrTypeList sig "params" = some params ∧ params.head? = some (some et) ∧
        (findTypeByName elements et.name = none ∨
         (∃ e, findTypeByName elements et.name = some e ∧ e.etype ≠ ElementInterface)))))

/-- A set of interface elements each of which, after some benign entries,
embeds another member of the set: the shape on which the Go interfaceMethods
recursion cannot terminate. -/
def cyclicIfaceEmbedding (elements : List Element) (cyc : List Element) : Prop :=
  ∀ i ∈ cyc, ∃ methods pre w post,
    attrMapList i.attributes "methods" = some methods ∧
    methods = pre ++ w :: post ∧
    (∀ m ∈ pre, imethodBenign elements m) ∧
    (attrString w "name" = none ∨ attrString w "name" = some "") ∧
    ∃ sig params et i', attrMap w "signature" = some sig ∧
      attrTypeList sig "params" = some params ∧ 0 < params.length ∧
      params.head? = some (some et) ∧
      findTypeByName elements et.name = some i' ∧ i'.etype = ElementInterface ∧ i' ∈ cyc

/-- A structure used for the metrics witness: a two-level containment chain
under the root package. -/
def metricsStructure : Structure :=
  ⟨[⟨0, ElementPackage, "p", []⟩, ⟨1, ElementTypeDecl, "T", []⟩, ⟨2, ElementMethod, "M", []⟩],
   [⟨RelationContains, 0, 1⟩, ⟨RelationContains, 1, 2⟩, ⟨RelationMethodReceiver, 2, 1⟩]⟩

/-! ## Theorems -/

/-! ### Generic fold and Res lemmas -/

theorem foldl_preserve {α β : Type} {P : β → Prop} (f : β → α → β)
    (hf : ∀ acc x, P acc → P (f acc x)) :
    ∀ (l : List α) (init : β), P init → P (l.foldl f init) := by
  intro l
  induction l with
  | nil => intro init h; exact h
  | cons x xs ih => intro init h; exact ih (f init x) (hf init x h)

theorem res_bind_ok {α β : Type} {x : Res α} {f : α → Res β} {b : β}
    (h : Res.bind x f = .ok b) : ∃ a, x = .ok a ∧ f a = .ok b := by
  cases x with
  | ok a => exact ⟨a, rfl, h⟩
  | err m => simp [Res.bind] at h
  | crash => simp [Res.bind] at h
  | diverge => simp [Res.bind] at h

theorem bind_eq_res_bind {α β : Type} (x : Res α) (f : α → Res β) :
    x >>= f = Res.bind x f := rfl

theorem foldlM_ok_preserve {α β : Type} {P : β → Prop} (f : β → α → Res β)
    (hf : ∀ acc x r, P acc → f acc x = .ok r → P r) :
    ∀ (l : List α) (init out : β), P init → l.foldlM f init = .ok out → P out := by
  intro l
  induction l with
  | nil =>
    intro init out h hfold
    simp [List.foldlM] at hfold
    rw [show (pure init : Res β) = .ok init from rfl] at hfold
    cases hfold
    exact h
  | cons x xs ih =>
    intro init out h hfold
    simp only [List.foldlM] at hfold
    rw [bind_eq_res_bind] at hfold
    obtain ⟨a, ha, hrest⟩ := res_bind_ok hfold
    exact ih a out (hf init x a h ha) hrest

/-! ### Relationship set lemmas -/

theorem hasRelationship_iff_mem (rels : List Relationship) (rel : Relationship) :
    hasRelationship rels rel = true ↔ rel ∈ rels := by
  unfold hasRelationship
  rw [List.any_eq_true]
  constructor
  · rintro ⟨x, hx, hp⟩
    simp only [Bool.and_eq_true, beq_iff_eq] at hp
    obtain ⟨⟨h1, h2⟩, h3⟩ := hp
    have : x = rel := by
      cases x; cases rel
      simp_all
    rwa [this] at hx
  · intro h
    refine ⟨rel, h, ?_⟩
    simp

theorem addRelIfNew_nodup (rels : List Relationship) (rel : Relationship)
    (h : rels.Nodup) : (addRelIfNew rels rel).Nodup := by
  unfold addRelIfNew
  split
  · exact h
  · next hfalse =>
    rw [List.nodup_append]
    refine ⟨h, List.nodup_singleton _, ?_⟩
    intro a ha hb
    rw [List.mem_singleton] at hb
    exact hfalse ((hasRelationship_iff_mem rels rel).mpr (hb ▸ ha))

theorem addRelIfNew_sub (rels : List Relationship) (rel : Relationship) :
    rels ⊆ addRelIfNew rels rel := by
  unfold addRelIfNew
  split
  · exact List.Subset.refl _
  · exact List.subset_append_left _ _

theorem mem_addRelIfNew (rels : List Relationship) (rel r : Relationship)
    (h : r ∈ addRelIfNew rels rel) : r ∈ rels ∨ r = rel := by
  unfold addRelIfNew at h
  split at h
  · exact Or.inl h
  · rcases List.mem_append.mp h with h1 | h1
    · exact Or.inl h1
    · exact Or.inr (List.mem_singleton.mp h1)

theorem addRelIfNew_mem_self (rels : List Relationship) (rel : Relationship) :
    rel ∈ addRelIfNew rels rel := by
  unfold addRelIfNew
  split
  · next htrue => exact (hasRelationship_iff_mem rels rel).mp htrue
  · exact List.mem_append.mpr (Or.inr (List.mem_singleton.mpr rfl))

/-! ### Cycle deduplication lemmas -/

theorem dedupStep_pairwise (acc : List (List String)) (c : List String)
    (h : acc.Pairwise (fun c1 c2 => cycleKey c1 ≠ cycleKey c2)) :
    (dedupStep acc c).Pairwise (fun c1 c2 => cycleKey c1 ≠ cycleKey c2) := by
  unfold dedupStep
  split
  · exact h
  · next hfalse =>
    rw [List.pairwise_append]
    refine ⟨h, List.pairwise_singleton _ _, ?_⟩
    intro a ha b hb
    rw [List.mem_singleton] at hb
    subst hb
    intro heq
    rw [Bool.not_eq_true, List.any_eq_false] at hfalse
    exact absurd (by simpa using heq) (by simpa using hfalse a ha)

theorem dedupFold_pairwise (raw : List (List String)) :
    ∀ acc, acc.Pairwise (fun c1 c2 => cycleKey c1 ≠ cycleKey c2) →
      (raw.foldl dedupStep acc).Pairwise (fun c1 c2 => cycleKey c1 ≠ cycleKey c2) := by
  induction raw with
  | nil => intro acc h; exact h
  | cons c rest ih =>
    intro acc h
    exact ih (dedupStep acc c) (dedupStep_pairwise acc c h)

theorem dedupFold_mem (raw : List (List String)) :
    ∀ acc c, c ∈ raw.foldl dedupStep acc →
      c ∈ acc ∨ ∃ c0, c0 ∈ raw ∧ c = normalizeCycle c0 := by
  induction raw with
  | nil => intro acc c h; exact Or.inl h
  | cons x rest ih =>
    intro acc c h
    rcases ih (dedupStep acc x) c h with h1 | h1
    · unfold dedupStep at h1
      split at h1
      · exact Or.inl h1
      · rcases List.mem_append.mp h1 with h2 | h2
        · exact Or.inl h2
        · exact Or.inr ⟨x, List.mem_cons_self _ _, List.mem_singleton.mp h2⟩
    · obtain ⟨c0, hc0, heq⟩ := h1
      exact Or.inr ⟨c0, List.mem_cons_of_mem _ hc0, heq⟩

/-! ### Claim theorems -/

/-- Claim C8: on an input with interface `Writer{Write([]byte)(int,error)}`,
type `Document` (fields content/writer, matching Write method) and type
`JSONDocument` embedding `Document`, structure analysis produces the
relationships (Document, implements, Writer), (JSONDocument, embeds,
Document) and (JSONDocument, implements, Writer), the last via the
inherited method set. -/
theorem claim_C8_concrete_scenario :
    AnalyzeStructure 100 sampleTree = .ok (okAnalysis (AnalyzeStructure 100 sampleTree)) ∧
    hasRelByName (okAnalysis (AnalyzeStructure 100 sampleTree)) RelationImplements "Document" "Writer" = true ∧
    hasRelByName (okAnalysis (AnalyzeStructure 100 sampleTree)) RelationEmbeds "JSONDocument" "Document" = true ∧
    hasRelByName (okAnalysis (AnalyzeStructure 100 sampleTree)) RelationImplements "JSONDocument" "Writer" = true :=
  ⟨rfl, rfl, rfl, rfl⟩

/-- Claim C3 (evaluation at the failing input): dependency analysis of a
unit whose import node carries a path but no `file_path` attribute panics
(failed interface conversion) instead of skipping that contribution. -/
theorem claim_C3_failing_input_evaluation :
    attrString importNoFileNode.attributes "path" = some "fmt" ∧
    attrString importNoFileNode.attributes "file_path" = none ∧
    DepAnalyze importNoFileTree = .crash :=
  ⟨rfl, rfl, rfl⟩

/-- Claim C4 (counterexample): on a tree whose root lacks the package-name
attribute the structure analyzer's Analyze does NOT return an error: it
succeeds, materializing a package element with the empty name — refuting
"both ... return an error". -/
theorem claim_C4_counterexample :
    attrString noPkgNameTree.attributes "package_name" = none ∧
    attrString noPkgNameTree.attributes "name" = none ∧
    AnalyzeStructure 100 noPkgNameTree = .ok (okAnalysis (AnalyzeStructure 100 noPkgNameTree)) ∧
    (okAnalysis (AnalyzeStructure 100 noPkgNameTree)).str.elements.map Element.name = ["", "T"] :=
  ⟨rfl, rfl, rfl, rfl⟩

/-- Claim C4 (amended): only the dependency analyzer's Analyze fails when
the root lacks the package-name attribute (surfacing the error, with nothing
partial); the structure analyzer's Analyze proceeds without error, naming
the package element from the `name` attribute or the empty string. -/
theorem claim_C4_amended (root : AstNode)
    (h : attrString root.attributes "package_name" = none) :
    DepAnalyze root = .err "missing package name in module node" ∧
    AnalyzeStructure 100 noPkgNameTree = .ok (okAnalysis (AnalyzeStructure 100 noPkgNameTree)) := by
  constructor
  · unfold DepAnalyze
    rw [h]
  · rfl

theorem claim_C4_amended_witness :
    DepAnalyze noPkgNameTree = .err "missing package name in module node" ∧
    AnalyzeStructure 100 noPkgNameTree = .ok (okAnalysis (AnalyzeStructure 100 noPkgNameTree)) :=
  claim_C4_amended noPkgNameTree rfl

/-- Claim C6 (counterexample): merging a donor graph that contains the edge
X→Y (together with nodes X and Y) into a receiver that has neither X nor Y
as nodes does NOT leave the receiver's edge set unchanged — the donor's
nodes are merged first, so the edge's endpoints exist by the time of the
dangling check and the edge is copied in. -/
theorem claim_C6_counterexample :
    (NewGraph.node? "X").isNone = true ∧ (NewGraph.node? "Y").isNone = true ∧
    NewGraph.dependencies = [] ∧
    depXY ∈ donorXY.dependencies ∧
    (DepMerge NewGraph donorXY).dependencies = [depXY] :=
  ⟨rfl, rfl, rfl, by decide, rfl⟩

/-- Claim C5: cycle detection returns distinct normalized cycles.  For the
ring A→B→C→A every DFS start order yields exactly the single normalized
cycle [A, B, C]; in general every result entry is the normalization of a
discovered cycle and result entries have pairwise distinct joined keys (so
re-running the — pure — detection on the same graph yields the same set). -/
theorem claim_C5_cycle_detection :
    (∀ order, order ∈ [["A", "B", "C"], ["A", "C", "B"], ["B", "A", "C"],
                       ["B", "C", "A"], ["C", "A", "B"], ["C", "B", "A"]] →
       FindCircularDependencies ringGraph order = [["A", "B", "C"]]) ∧
    (∀ g order, (FindCircularDependencies g order).Pairwise
       (fun c1 c2 => cycleKey c1 ≠ cycleKey c2)) ∧
    (∀ g order c, c ∈ FindCircularDependencies g order →
       ∃ c0, c0 ∈ dfsAll g order ∧ c = normalizeCycle c0) := by
  refine ⟨?_, ?_, ?_⟩
  · intro order h
    simp only [List.mem_cons, List.not_mem_nil, or_false] at h
    rcases h with rfl | rfl | rfl | rfl | rfl | rfl <;> rfl
  · intro g order
    exact dedupFold_pairwise _ [] (List.Pairwise.nil)
  · intro g order c h
    rcases dedupFold_mem _ [] c h with h1 | h1
    · exact absurd h1 (List.not_mem_nil c)
    · exact h1

theorem claim_C5_witness :
    FindCircularDependencies ringGraph ["B", "C", "A"] = [["A", "B", "C"]] ∧
    (FindCircularDependencies ringGraph ["A", "B", "C"]).Pairwise
      (fun c1 c2 => cycleKey c1 ≠ cycleKey c2) :=
  ⟨claim_C5_cycle_detection.1 ["B", "C", "A"] (by simp),
   claim_C5_cycle_detection.2.1 ringGraph ["A", "B", "C"]⟩

/-- Claim C7: structure merge drops donor package elements whose name
already exists among the base's packages, appends all donor non-package
elements unconditionally, appends all donor relationships, and fails with an
error whenever the two sides' language tags disagree. -/
theorem claim_C7_structure_merge (b o : Analysis)
    (hb : b.language = "go") (ho : o.language = "go") :
    (∀ b' o' : Analysis, b'.language ≠ o'.language →
       ∃ msg, MergeStructure (some b') (some o') = .error msg) ∧
    MergeStructure (some b) (some o) =
      .ok { language := b.language,
            str := { elements := b.str.elements ++ o.str.elements.filter (fun e =>
                       !(e.etype == ElementPackage &&
                         ((b.str.elements.filter (fun p => p.etype == ElementPackage)).map Element.name).contains e.name)),
                     relationships := b.str.relationships ++ o.str.relationships } } := by
  constructor
  · intro b' o' hne
    unfold MergeStructure
    by_cases hb' : b'.language = "go"
    · have ho' : o'.language ≠ "go" := fun h => hne (hb'.trans h.symm)
      exact ⟨"can only merge Go analyses", by simp [ho']⟩
    · exact ⟨"can only merge Go analyses", by simp [hb']⟩
  · unfold MergeStructure
    simp [hb, ho]

/-! ### Dependency merge lemmas (for claim C6) -/

theorem lookupAssoc_updateAssoc {α : Type} (m : List (String × α)) (k : String) (v : α)
    (k' : String) :
    lookupAssoc (updateAssoc m k v) k' = if k == k' then some v else lookupAssoc m k' := by
  induction m with
  | nil => simp [updateAssoc, lookupAssoc]
  | cons p rest ih =>
    obtain ⟨k0, v0⟩ := p
    by_cases h0 : k0 = k
    · subst h0
      by_cases h : k0 = k'
      · subst h; simp [updateAssoc, lookupAssoc]
      · simp [updateAssoc, lookupAssoc, h]
    · by_cases h : k0 = k'
      · subst h
        have hkk' : ¬(k = k0) := fun hh => h0 hh.symm
        simp [updateAssoc, lookupAssoc, h0, hkk']
      · simp [updateAssoc, lookupAssoc, h0, h, ih]

theorem lookupAssoc_eq_none_of_not_mem {α : Type} (m : List (String × α)) (k : String)
    (h : k ∉ m.map Prod.fst) : lookupAssoc m k = none := by
  induction m with
  | nil => rfl
  | cons p rest ih =>
    obtain ⟨k0, v0⟩ := p
    simp only [List.map_cons, List.mem_cons] at h
    push_neg at h
    have hne : (k0 == k) = false := beq_eq_false_iff_ne.mpr (fun hh => h.1 hh.symm)
    simp [lookupAssoc, hne, ih h.2]

theorem addDependency_dependencies (g : Graph) (dep : Dependency) :
    (g.addDependency dep).dependencies = g.dependencies ++ [dep] := by
  unfold Graph.addDependency
  dsimp only
  split
  · split <;> rfl
  · split <;> rfl

theorem addDependency_nodes (g : Graph) (dep : Dependency) :
    (g.addDependency dep).nodes = g.nodes := by
  unfold Graph.addDependency
  dsimp only
  split
  · split <;> rfl
  · split <;> rfl

theorem mergeNodesStep_dependencies (g : Graph) (p : String × DepNode) :
    (mergeNodesStep g p).dependencies = g.dependencies := rfl

theorem mergeNodes_dependencies (dn : List (String × DepNode)) :
    ∀ g : Graph, (mergeNodes g dn).dependencies = g.dependencies := by
  induction dn with
  | nil => intro g; rfl
  | cons p rest ih =>
    intro g
    show (List.foldl mergeNodesStep (mergeNodesStep g p) rest).dependencies = _
    rw [show List.foldl mergeNodesStep (mergeNodesStep g p) rest = mergeNodes (mergeNodesStep g p) rest from rfl,
        ih, mergeNodesStep_dependencies]

theorem mergeNodesStep_node? (g : Graph) (p : String × DepNode) (k : String) :
    (mergeNodesStep g p).node? k =
      if p.2.id == k then some (mergeOneNode (g.node? p.2.id) p.2) else g.node? k := by
  show lookupAssoc (updateAssoc g.nodes p.2.id (mergeOneNode (g.node? p.2.id) p.2)) k = _
  rw [lookupAssoc_updateAssoc]
  rfl

theorem mergeNodes_node?_eq (dn : List (String × DepNode))
    (hw : ∀ p ∈ dn, p.1 = p.2.id) (hnd : (dn.map Prod.fst).Nodup) (k : String) :
    ∀ g : Graph,
      (mergeNodes g dn).node? k =
        match lookupAssoc dn k with
        | some nd => some (mergeOneNode (g.node? k) nd)
        | none => g.node? k := by
  induction dn with
  | nil => intro g; rfl
  | cons p rest ih =>
    intro g
    obtain ⟨k0, n0⟩ := p
    have hid : k0 = n0.id := hw (k0, n0) (List.mem_cons_self _ _)
    have hw' : ∀ q ∈ rest, q.1 = q.2.id := fun q hq => hw q (List.mem_cons_of_mem _ hq)
    have hnd' : (rest.map Prod.fst).Nodup := (List.nodup_cons.mp (by simpa using hnd)).2
    have hk0 : k0 ∉ rest.map Prod.fst := (List.nodup_cons.mp (by simpa using hnd)).1
    show (mergeNodes (mergeNodesStep g (k0, n0)) rest).node? k = _
    rw [ih hw' hnd']
    by_cases h : k0 = k
    · subst h
      have hrest : lookupAssoc rest k0 = none := lookupAssoc_eq_none_of_not_mem _ _ hk0
      rw [hrest]
      have hlook : lookupAssoc ((k0, n0) :: rest) k0 = some n0 := by simp [lookupAssoc]
      rw [hlook]
      rw [mergeNodesStep_node?]
      simp [← hid]
    · have : lookupAssoc ((k0, n0) :: rest) k = lookupAssoc rest k := by
        simp [lookupAssoc, h]
      rw [this]
      have hstep : (mergeNodesStep g (k0, n0)).node? k = g.node? k := by
        rw [mergeNodesStep_node?]
        simp [← hid, h]
      rw [hstep]

theorem mergeNodes_node?_isSome (dn : List (String × DepNode))
    (hw : ∀ p ∈ dn, p.1 = p.2.id) (k : String) :
    ∀ g : Graph,
      ((mergeNodes g dn).node? k).isSome =
        ((g.node? k).isSome || (lookupAssoc dn k).isSome) := by
  induction dn with
  | nil => intro g; simp [mergeNodes, lookupAssoc]
  | cons p rest ih =>
    intro g
    obtain ⟨k0, n0⟩ := p
    have hid : k0 = n0.id := hw (k0, n0) (List.mem_cons_self _ _)
    have hw' : ∀ q ∈ rest, q.1 = q.2.id := fun q hq => hw q (List.mem_cons_of_mem _ hq)
    show ((mergeNodes (mergeNodesStep g (k0, n0)) rest).node? k).isSome = _
    rw [ih hw']
    by_cases h : k0 = k
    · subst h
      have hstep : (mergeNodesStep g (k0, n0)).node? k0 = some (mergeOneNode (g.node? k0) n0) := by
        rw [mergeNodesStep_node?]
        simp [← hid]
      rw [hstep]
      simp [lookupAssoc]
    · have hstep : (mergeNodesStep g (k0, n0)).node? k = g.node? k := by
        rw [mergeNodesStep_node?]
        simp [← hid, h]
      rw [hstep]
      simp [lookupAssoc, h]

theorem depMergeFold_dependencies (g1 : Graph) (ex : List String) :
    ∀ (deps : List Dependency) (g : Graph),
      (deps.foldl (depMergeStep g1 ex) g).dependencies =
        g.dependencies ++ deps.filter (fun dep =>
          (g1.node? dep.dfrom).isSome && (g1.node? dep.dto).isSome &&
          !(ex.contains (depKey dep))) := by
  intro deps
  induction deps with
  | nil => intro g; simp
  | cons dep rest ih =>
    intro g
    rw [List.foldl_cons, ih, List.filter_cons]
    cases hf : g1.node? dep.dfrom with
    | none => simp [depMergeStep, hf]
    | some nf =>
      cases ht : g1.node? dep.dto with
      | none => simp [depMergeStep, hf, ht]
      | some nt =>
        by_cases h3 : depKey dep ∈ ex
        · have h3b : ex.contains (depKey dep) = true := by simpa using h3
          simp [depMergeStep, hf, ht, h3, h3b]
        · have h3b : ex.contains (depKey dep) = false := by simpa using h3
          have hcopy : ({ dfrom := dep.dfrom, dto := dep.dto, dtype := dep.dtype,
                          isExternal := dep.isExternal, location := dep.location } : Dependency) = dep := rfl
          simp [depMergeStep, hf, ht, h3, h3b, hcopy, addDependency_dependencies]

theorem depMergeFold_nodes (g1 : Graph) (ex : List String) :
    ∀ (deps : List Dependency) (g : Graph),
      (deps.foldl (depMergeStep g1 ex) g).nodes = g.nodes := by
  intro deps
  induction deps with
  | nil => intro g; rfl
  | cons dep rest ih =>
    intro g
    rw [List.foldl_cons, ih]
    unfold depMergeStep
    split
    · rfl
    · split
      · rfl
      · split
        · rfl
        · rw [addDependency_nodes]

/-- Claim C6 (amended): dependency Merge copies donor nodes into the
receiver first (for shared ids: donor metadata bindings overwrite additively
and the external flags are OR-ed; new ids are deep-copied with a fresh
metadata map); it then copies exactly those donor edges whose `from:to:type`
key is absent from the receiver's pre-merge edge index and whose endpoints
both exist in the node-merged receiver.  Because donor nodes are merged
before the endpoint check, a donor edge is silently dropped only when an
endpoint exists in neither the receiver nor the donor node set; merging a
donor with an edge (X→Y) leaves the receiver's edge set unchanged when X or
Y is absent from both graphs' node sets. -/
theorem claim_C6_amended (receiver donor : Graph)
    (hw : ∀ p ∈ donor.nodes, p.1 = p.2.id)
    (hnd : (donor.nodes.map Prod.fst).Nodup) :
    ((DepMerge receiver donor).dependencies =
      receiver.dependencies ++ donor.dependencies.filter (fun dep =>
        ((mergeNodes receiver donor.nodes).node? dep.dfrom).isSome &&
        ((mergeNodes receiver donor.nodes).node? dep.dto).isSome &&
        !((receiver.dependencies.map depKey).contains (depKey dep)))) ∧
    ((∀ dep ∈ donor.dependencies,
        (receiver.node? dep.dfrom = none ∧ donor.node? dep.dfrom = none) ∨
        (receiver.node? dep.dto = none ∧ donor.node? dep.dto = none)) →
      (DepMerge receiver donor).dependencies = receiver.dependencies) ∧
    (∀ k nd, donor.node? k = some nd →
      (DepMerge receiver donor).node? k =
        some (mergeOneNode (receiver.node? k) nd)) := by
  have hdeps : (DepMerge receiver donor).dependencies =
      (mergeNodes receiver donor.nodes).dependencies ++ donor.dependencies.filter (fun dep =>
        ((mergeNodes receiver donor.nodes).node? dep.dfrom).isSome &&
        ((mergeNodes receiver donor.nodes).node? dep.dto).isSome &&
        !((receiver.dependencies.map depKey).contains (depKey dep))) :=
    depMergeFold_dependencies _ _ donor.dependencies _
  rw [mergeNodes_dependencies] at hdeps
  refine ⟨hdeps, ?_, ?_⟩
  · intro hall
    rw [hdeps]
    have : donor.dependencies.filter (fun dep =>
        ((mergeNodes receiver donor.nodes).node? dep.dfrom).isSome &&
        ((mergeNodes receiver donor.nodes).node? dep.dto).isSome &&
        !((receiver.dependencies.map depKey).contains (depKey dep))) = [] := by
      rw [List.filter_eq_nil_iff]
      intro dep hdep
      rcases hall dep hdep with ⟨hr, hd⟩ | ⟨hr, hd⟩
      · have : ((mergeNodes receiver donor.nodes).node? dep.dfrom).isSome = false := by
          rw [mergeNodes_node?_isSome donor.nodes hw dep.dfrom receiver,
              show lookupAssoc donor.nodes dep.dfrom = donor.node? dep.dfrom from rfl, hr, hd]
          rfl
        simp [this]
      · have : ((mergeNodes receiver donor.nodes).node? dep.dto).isSome = false := by
          rw [mergeNodes_node?_isSome donor.nodes hw dep.dto receiver,
              show lookupAssoc donor.nodes dep.dto = donor.node? dep.dto from rfl, hr, hd]
          rfl
        simp [this]
    rw [this, List.append_nil]
  · intro k nd hk
    have hnodes : (DepMerge receiver donor).nodes = (mergeNodes receiver donor.nodes).nodes :=
      depMergeFold_nodes _ _ donor.dependencies _
    have : (DepMerge receiver donor).node? k = (mergeNodes receiver donor.nodes).node? k := by
      show lookupAssoc (DepMerge receiver donor).nodes k = _
      rw [hnodes]
      rfl
    rw [this, mergeNodes_node?_eq donor.nodes hw hnd k receiver]
    rw [show lookupAssoc donor.nodes k = donor.node? k from rfl, hk]

theorem claim_C6_amended_witness :
    (DepMerge (NewGraph.addNode depNodeX) donorXY).dependencies =
      (NewGraph.addNode depNodeX).dependencies ++ donorXY.dependencies.filter (fun dep =>
        ((mergeNodes (NewGraph.addNode depNodeX) donorXY.nodes).node? dep.dfrom).isSome &&
        ((mergeNodes (NewGraph.addNode depNodeX) donorXY.nodes).node? dep.dto).isSome &&
        !(((NewGraph.addNode depNodeX).dependencies.map depKey).contains (depKey dep))) :=
  (claim_C6_amended (NewGraph.addNode depNodeX) donorXY (by decide) (by decide)).1

theorem claim_C7_witness :
    (∃ msg, MergeStructure (some tinyBase) (some pythonAnalysis) = .error msg) ∧
    MergeStructure (some tinyBase) (some tinyDonor) =
      .ok ⟨"go", ⟨[⟨0, ElementPackage, "a", []⟩, ⟨1, ElementTypeDecl, "T", []⟩],
                  [⟨RelationContains, 0, 1⟩]⟩⟩ := by
  constructor
  · exact (claim_C7_structure_merge tinyBase tinyDonor rfl rfl).1 tinyBase pythonAnalysis (by decide)
  · have h := (claim_C7_structure_merge tinyBase tinyDonor rfl rfl).2
    rw [h]
    rfl

/-! ### Method-set divergence lemmas (for claim C10) -/

theorem typeMethodsFieldsStep_skip (elements : List Element)
    (rec : Element → Res (List Attrs)) (f : Attrs) (acc : Res (List Attrs))
    (h : fieldSkipped elements f) :
    typeMethodsFieldsStep elements rec f acc = acc := by
  unfold typeMethodsFieldsStep
  rcases h with h | h | ⟨ft, h1, h2⟩
  · cases hb : attrBool f "embedded" with
    | none => rfl
    | some b =>
      cases b with
      | false => rfl
      | true => exact absurd hb h
  · cases hb : attrBool f "embedded" with
    | none => rfl
    | some b =>
      cases b with
      | false => rfl
      | true => simp only [h]
  · cases hb : attrBool f "embedded" with
    | none => rfl
    | some b =>
      cases b with
      | false => rfl
      | true => simp only [h1, h2]

theorem foldr_typeMethodsFieldsStep_skips (elements : List Element)
    (rec : Element → Res (List Attrs)) (pre rest : List Attrs)
    (h : ∀ f ∈ pre, fieldSkipped elements f) (init : Res (List Attrs)) :
    (pre ++ rest).foldr (typeMethodsFieldsStep elements rec) init
      = rest.foldr (typeMethodsFieldsStep elements rec) init := by
  induction pre with
  | nil => rfl
  | cons f fs ih =>
    simp only [List.cons_append, List.foldr_cons]
    rw [ih (fun g hg => h g (List.mem_cons_of_mem f hg))]
    exact typeMethodsFieldsStep_skip elements rec f _ (h f (List.mem_cons_self f fs))

theorem typeMethodsFieldsStep_diverge (elements : List Element)
    (rec : Element → Res (List Attrs)) (w : Attrs) (acc : Res (List Attrs))
    (ft : TypeInfo) (t' : Element)
    (hemb : attrBool w "embedded" = some true)
    (htype : attrTypeInfo w "type" = some (some ft))
    (hfind : findTypeByName elements (resolveTypeName ft) = some t')
    (hrec : rec t' = .diverge) :
    typeMethodsFieldsStep elements rec w acc = .diverge := by
  unfold typeMethodsFieldsStep
  simp only [hemb, htype, hfind, hrec]
  rfl

theorem interfaceMethodsStep_benign_diverge (elements : List Element)
    (rec : Element → Res (List Attrs)) (m : Attrs) (acc : Res (List Attrs))
    (hb : imethodBenign elements m) (hacc : acc = .diverge) :
    interfaceMethodsStep elements rec m acc = .diverge := by
  subst hacc
  unfold interfaceMethodsStep
  cases hn : attrString m "name" with
  | some name =>
    cases hne : name != "" with
    | true => simp only [hn, hne]; rfl
    | false =>
      have hname0 : name = "" := by simpa using hne
      rcases hb with ⟨name2, h1, h2⟩ | h | ⟨sig, h1, h3⟩
      · rw [hn] at h1
        cases h1
        exact absurd hname0 h2
      · simp only [hn, hne, h]; rfl
      · rcases h3 with h3 | h3 | ⟨params, et, h3, h4, h5⟩
        · simp only [hn, hne, h1, h3]; rfl
        · simp only [hn, hne, h1, h3]; rfl
        · rcases h5 with h5 | ⟨e, h5, h6⟩
          · simp only [hn, hne, h1, h3, h4, h5]
            cases params with
            | nil => simp at h4
            | cons p ps => simp
          · simp only [hn, hne, h1, h3, h4, h5]
            cases params with
            | nil => simp at h4
            | cons p ps =>
              have h6b : (e.etype == ElementInterface) = false := by
                simpa using h6
              simp [h6b]
  | none =>
    rcases hb with ⟨name2, h1, h2⟩ | h | ⟨sig, h1, h3⟩
    · rw [hn] at h1
      cases h1
    · simp only [hn, h]; rfl
    · rcases h3 with h3 | h3 | ⟨params, et, h3, h4, h5⟩
      · simp only [hn, h1, h3]; rfl
      · simp only [hn, h1, h3]; rfl
      · rcases h5 with h5 | ⟨e, h5, h6⟩
        · simp only [hn, h1, h3, h4, h5]
          cases params with
          | nil => simp at h4
          | cons p ps => simp
        · simp only [hn, h1, h3, h4, h5]
          cases params with
          | nil => simp at h4
          | cons p ps =>
            have h6b : (e.etype == ElementInterface) = false := by
              simpa using h6
            simp [h6b]

theorem interfaceMethodsStep_diverge (elements : List Element)
    (rec : Element → Res (List Attrs)) (w : Attrs) (acc : Res (List Attrs))
    (sig : Attrs) (params : List (Option TypeInfo)) (et : TypeInfo) (i' : Element)
    (hname : attrString w "name" = none ∨ attrString w "name" = some "")
    (hsig : attrMap w "signature" = some sig)
    (hparams : attrTypeList sig "params" = some params)
    (hlen : 0 < params.length)
    (hhead : params.head? = some (some et))
    (hfind : findTypeByName elements et.name = some i')
    (hiface : i'.etype = ElementInterface)
    (hrec : rec i' = .diverge) :
    interfaceMethodsStep elements rec w acc = .diverge := by
  unfold interfaceMethodsStep
  have hbeq : (i'.etype == ElementInterface) = true := by simp [hiface]
  rcases hname with hname | hname
  · simp only [hname, hsig, hparams, hhead, hfind, hbeq, hrec, if_pos hlen]
    rfl
  · simp only [hname, hsig, hparams, hhead, hfind, hbeq, hrec, if_pos hlen]
    rfl

theorem foldr_interfaceMethodsStep_benign (elements : List Element)
    (rec : Element → Res (List Attrs)) (pre rest : List Attrs)
    (h : ∀ m ∈ pre, imethodBenign elements m)
    (hrest : rest.foldr (interfaceMethodsStep elements rec) (.ok []) = .diverge) :
    (pre ++ rest).foldr (interfaceMethodsStep elements rec) (.ok []) = .diverge := by
  induction pre with
  | nil => simpa using hrest
  | cons m ms ih =>
    simp only [List.cons_append, List.foldr_cons]
    exact interfaceMethodsStep_benign_diverge elements rec m _
      (h m (List.mem_cons_self m ms))
      (ih (fun g hg => h g (List.mem_cons_of_mem m hg)))

/-- C10: the pattern-detection method-set computations terminate only on
embedding-acyclic inputs.  typeMethods and interfaceMethods recurse through
embedded types and embedded interfaces with no visited set and no depth
bound, so on any model in which a set of types (resp. interfaces) each
embeds another member of the set — e.g. type A with an embedded B field and
type B with an embedded A field — the computation diverges at every fuel
bound: the Go recursion never returns. -/
theorem claim_C10_embedding_cycle_nontermination
    (elemsT cycT elemsI cycI : List Element)
    (hT : cyclicEmbedding elemsT cycT) (hI : cyclicIfaceEmbedding elemsI cycI) :
    (∀ n, ∀ t ∈ cycT, typeMethods n elemsT t = .diverge) ∧
    (∀ n, ∀ i ∈ cycI, interfaceMethods n elemsI i = .diverge) := by
  constructor
  · intro n
    induction n with
    | zero => intro t _; rfl
    | succ n ih =>
      intro t ht
      obtain ⟨fields, pre, w, post, hfields, hsplit, hpre, ft, t', hemb, htype, hfind, ht'⟩ :=
        hT t ht
      subst hsplit
      simp only [typeMethods, hfields]
      rw [foldr_typeMethodsFieldsStep_skips elemsT (typeMethods n elemsT) pre (w :: post) hpre]
      simp only [List.foldr_cons]
      rw [typeMethodsFieldsStep_diverge elemsT (typeMethods n elemsT) w _ ft t' hemb htype hfind
        (ih t' ht')]
      rfl
  · intro n
    induction n with
    | zero => intro i _; rfl
    | succ n ih =>
      intro i hi
      obtain ⟨methods, pre, w, post, hmethods, hsplit, hpre, hname, sig, params, et, i', hsig,
        hparams, hlen, hhead, hfind, hiface, hi'⟩ := hI i hi
      subst hsplit
      simp only [interfaceMethods, hmethods]
      exact foldr_interfaceMethodsStep_benign elemsI (interfaceMethods n elemsI) pre (w :: post)
        hpre (by
          simp only [List.foldr_cons]
          exact interfaceMethodsStep_diverge elemsI (interfaceMethods n elemsI) w _ sig params
            et i' hname hsig hparams hlen hhead hfind hiface (ih i' hi'))

theorem claim_C10_witness :
    typeMethods 7 cyclicElems cycElemA = .diverge ∧
    interfaceMethods 7 cyclicIfaceElems cycIfaceX = .diverge := by
  have hT : cyclicEmbedding cyclicElems [cycElemA, cycElemB] := by
    intro t ht
    rcases List.mem_cons.mp ht with rfl | ht2
    · exact ⟨_, [], _, [], rfl, rfl, by simp, basicTI "basic" "B", cycElemB,
        rfl, rfl, rfl, by simp⟩
    · rcases List.mem_cons.mp ht2 with rfl | ht3
      · exact ⟨_, [], _, [], rfl, rfl, by simp, basicTI "basic" "A", cycElemA,
          rfl, rfl, rfl, by simp⟩
      · exact absurd ht3 (List.not_mem_nil t)
  have hI : cyclicIfaceEmbedding cyclicIfaceElems [cycIfaceX] := by
    intro i hi
    rcases List.mem_cons.mp hi with rfl | hi2
    · exact ⟨_, [], _, [], rfl, rfl, by simp, Or.inl rfl,
        [("params", .vTypeList [some (basicTI "basic" "X")])],
        [some (basicTI "basic" "X")], basicTI "basic" "X", cycIfaceX,
        rfl, rfl, by simp, rfl, rfl, rfl, by simp⟩
    · exact absurd hi2 (List.not_mem_nil i)
  exact ⟨(claim_C10_embedding_cycle_nontermination cyclicElems [cycElemA, cycElemB]
            cyclicIfaceElems [cycIfaceX] hT hI).1 7 cycElemA (by simp),
         (claim_C10_embedding_cycle_nontermination cyclicElems [cycElemA, cycElemB]
            cyclicIfaceElems [cycIfaceX] hT hI).2 7 cycIfaceX (by simp)⟩

/-! ### Metrics lemmas (for claim C9) -/

theorem nat_beq_false_of_ne {k k' : Nat} (h : k ≠ k') : (k == k') = false := by
  cases hb : k == k'
  · rfl
  · exact absurd (eq_of_beq hb) h

theorem lookupCount_cons_self (k : Nat) (v : Int) (rest : List (Nat × Int)) :
    lookupCount ((k, v) :: rest) k = v := by
  simp [lookupCount, List.find?]

theorem lookupCount_cons_ne (k' : Nat) (w : Int) (rest : List (Nat × Int)) (k : Nat)
    (h : k' ≠ k) :
    lookupCount ((k', w) :: rest) k = lookupCount rest k := by
  simp [lookupCount, List.find?, nat_beq_false_of_ne h]

theorem lookupCount_updateCount_self (m : List (Nat × Int)) (k : Nat) (v : Int) :
    lookupCount (updateCount m k v) k = v := by
  induction m with
  | nil => simp [updateCount, lookupCount, List.find?]
  | cons p rest ih =>
    obtain ⟨k', w⟩ := p
    by_cases h : k' = k
    · subst h
      simp [updateCount, lookupCount, List.find?]
    · simp [updateCount, nat_beq_false_of_ne h, lookupCount_cons_ne _ _ _ _ h, ih]

theorem lookupCount_updateCount_ne (m : List (Nat × Int)) (k : Nat) (v : Int) (k' : Nat)
    (h : k' ≠ k) :
    lookupCount (updateCount m k v) k' = lookupCount m k' := by
  induction m with
  | nil => simp [updateCount, lookupCount, List.find?, nat_beq_false_of_ne (Ne.symm h)]
  | cons p rest ih =>
    obtain ⟨k'', w⟩ := p
    by_cases h2 : k'' = k
    · subst h2
      simp [updateCount, lookupCount_cons_ne _ _ _ _ (Ne.symm h)]
    · by_cases h3 : k'' = k'
      · subst h3
        simp [updateCount, nat_beq_false_of_ne h2, lookupCount_cons_self]
      · simp [updateCount, nat_beq_false_of_ne h2, lookupCount_cons_ne _ _ _ _ h3, ih]

theorem updateCount_keys_mem (m : List (Nat × Int)) (k : Nat) (v : Int)
    (h : k ∈ m.map Prod.fst) :
    (updateCount m k v).map Prod.fst = m.map Prod.fst := by
  induction m with
  | nil => simp at h
  | cons p rest ih =>
    obtain ⟨k', w⟩ := p
    by_cases he : k' = k
    · subst he
      simp [updateCount]
    · simp only [List.map_cons, List.mem_cons] at h
      rcases h with h1 | h2
      · exact absurd h1.symm he
      · simp [updateCount, nat_beq_false_of_ne he, ih h2]

theorem updateCount_keys_not_mem (m : List (Nat × Int)) (k : Nat) (v : Int)
    (h : k ∉ m.map Prod.fst) :
    (updateCount m k v).map Prod.fst = m.map Prod.fst ++ [k] := by
  induction m with
  | nil => simp [updateCount]
  | cons p rest ih =>
    obtain ⟨k', w⟩ := p
    simp only [List.map_cons, List.mem_cons, not_or] at h
    obtain ⟨h1, h2⟩ := h
    simp [updateCount, nat_beq_false_of_ne (Ne.symm h1), ih h2]

theorem depthChildrenMaps_append (l : List Relationship) (r : Relationship) :
    depthChildrenMaps (l ++ [r]) = depthChildrenStep (depthChildrenMaps l) r := by
  simp [depthChildrenMaps, List.foldl_append]

theorem depthChildrenStep_depths_contains (maps : DepthMaps) (r : Relationship)
    (h : r.rtype = RelationContains) :
    (depthChildrenStep maps r).depths =
      updateCount maps.depths r.target (lookupCount maps.depths r.source + 1) := by
  simp [depthChildrenStep, h]

theorem depthChildrenStep_children_contains (maps : DepthMaps) (r : Relationship)
    (h : r.rtype = RelationContains) :
    (depthChildrenStep maps r).children =
      updateCount maps.children r.source (lookupCount maps.children r.source + 1) := by
  simp [depthChildrenStep, h]

theorem depthChildrenStep_not_contains (maps : DepthMaps) (r : Relationship)
    (h : ¬r.rtype = RelationContains) :
    depthChildrenStep maps r = maps := by
  simp [depthChildrenStep, h]

theorem depths_contains_eq (rels : List Relationship) :
    rels.Pairwise (fun a b =>
      a.rtype = RelationContains → b.rtype = RelationContains →
        a.source ≠ b.target ∧ a.target ≠ b.target) →
    (∀ r ∈ rels, r.rtype = RelationContains → r.source ≠ r.target) →
    ∀ r ∈ rels, r.rtype = RelationContains →
      lookupCount (depthChildrenMaps rels).depths r.target =
        lookupCount (depthChildrenMaps rels).depths r.source + 1 := by
  induction rels using List.reverseRecOn with
  | nil =>
    intro _ _ r hr
    exact absurd hr (List.not_mem_nil r)
  | append_singleton l a ih =>
    intro hpair hirr r hr hcont
    rw [List.pairwise_append] at hpair
    obtain ⟨hpl, -, hrel⟩ := hpair
    have hirrl : ∀ r ∈ l, r.rtype = RelationContains → r.source ≠ r.target :=
      fun r hr => hirr r (List.mem_append_left _ hr)
    rw [depthChildrenMaps_append]
    rcases List.mem_append.mp hr with hrl | hrr
    · have hold := ih hpl hirrl r hrl hcont
      by_cases hc : a.rtype = RelationContains
      · obtain ⟨hs, ht⟩ := hrel r hrl a (by simp) hcont hc
        rw [depthChildrenStep_depths_contains _ _ hc,
          lookupCount_updateCount_ne _ _ _ _ ht,
          lookupCount_updateCount_ne _ _ _ _ hs]
        exact hold
      · rw [depthChildrenStep_not_contains _ _ hc]
        exact hold
    · have hra : r = a := by simpa using hrr
      subst hra
      rw [depthChildrenStep_depths_contains _ _ hcont]
      have hne : r.source ≠ r.target := hirr r (List.mem_append_right _ (by simp)) hcont
      rw [lookupCount_updateCount_self, lookupCount_updateCount_ne _ _ _ _ hne]

theorem depths_zero_of_not_target (rels : List Relationship) (idv : Nat) :
    (∀ r ∈ rels, r.rtype = RelationContains → r.target ≠ idv) →
    lookupCount (depthChildrenMaps rels).depths idv = 0 := by
  induction rels using List.reverseRecOn with
  | nil => intro _; rfl
  | append_singleton l a ih =>
    intro h
    rw [depthChildrenMaps_append]
    by_cases hc : a.rtype = RelationContains
    · have hne : a.target ≠ idv := h a (by simp) hc
      rw [depthChildrenStep_depths_contains _ _ hc,
        lookupCount_updateCount_ne _ _ _ _ (Ne.symm hne)]
      exact ih (fun r hr hcr => h r (List.mem_append_left _ hr) hcr)
    · rw [depthChildrenStep_not_contains _ _ hc]
      exact ih (fun r hr hcr => h r (List.mem_append_left _ hr) hcr)

theorem children_count_eq (rels : List Relationship) (idv : Nat) :
    lookupCount (depthChildrenMaps rels).children idv =
      ((rels.filter (fun r => r.rtype == RelationContains && r.source == idv)).length : Int) := by
  induction rels using List.reverseRecOn with
  | nil => rfl
  | append_singleton l a ih =>
    rw [depthChildrenMaps_append, List.filter_append]
    by_cases hc : a.rtype = RelationContains
    · rw [depthChildrenStep_children_contains _ _ hc]
      by_cases hs : a.source = idv
      · subst hs
        rw [lookupCount_updateCount_self, ih]
        have hfa : List.filter (fun r => r.rtype == RelationContains && r.source == a.source)
            [a] = [a] := by simp [hc]
        rw [hfa]
        simp
      · rw [lookupCount_updateCount_ne _ _ _ _ (Ne.symm hs), ih]
        have hfa : List.filter (fun r => r.rtype == RelationContains && r.source == idv)
            [a] = [] := by simp [nat_beq_false_of_ne hs]
        rw [hfa]
        simp
    · rw [depthChildrenStep_not_contains _ _ hc]
      have hfa : List.filter (fun r => r.rtype == RelationContains && r.source == idv)
          [a] = [] := by simp [hc]
      rw [hfa]
      simp [ih]

theorem depths_keys_charn (rels : List Relationship) :
    ((depthChildrenMaps rels).depths.map Prod.fst).Nodup ∧
    (∀ k, k ∈ (depthChildrenMaps rels).depths.map Prod.fst ↔
      k ∈ ((rels.filter (fun r => r.rtype == RelationContains)).map Relationship.target)) := by
  induction rels using List.reverseRecOn with
  | nil => exact ⟨List.nodup_nil, fun k => by simp [depthChildrenMaps]⟩
  | append_singleton l a ih =>
    obtain ⟨ihn, ihm⟩ := ih
    rw [depthChildrenMaps_append]
    by_cases hc : a.rtype = RelationContains
    · have hfa : List.filter (fun r => r.rtype == RelationContains) (l ++ [a]) =
          List.filter (fun r => r.rtype == RelationContains) l ++ [a] := by
        rw [List.filter_append]
        simp [hc]
      rw [depthChildrenStep_depths_contains _ _ hc, hfa]
      by_cases hmem : a.target ∈ (depthChildrenMaps l).depths.map Prod.fst
      · rw [updateCount_keys_mem _ _ _ hmem]
        refine ⟨ihn, fun k => ?_⟩
        simp only [List.map_append, List.map_cons, List.map_nil, List.mem_append,
          List.mem_cons, List.not_mem_nil, or_false]
        constructor
        · intro hk
          exact Or.inl ((ihm k).mp hk)
        · rintro (hk | hk)
          · exact (ihm k).mpr hk
          · subst hk
            exact hmem
      · rw [updateCount_keys_not_mem _ _ _ hmem]
        constructor
        · rw [List.nodup_append]
          exact ⟨ihn, List.nodup_singleton _,
            fun k hk hk2 => hmem ((List.mem_singleton.mp hk2) ▸ hk)⟩
        · intro k
          simp only [List.map_append, List.map_cons, List.map_nil, List.mem_append,
            List.mem_cons, List.not_mem_nil, or_false]
          exact or_congr (ihm k) Iff.rfl
    · have hfa : List.filter (fun r => r.rtype == RelationContains) (l ++ [a]) =
          List.filter (fun r => r.rtype == RelationContains) l := by
        rw [List.filter_append]
        simp [hc]
      rw [depthChildrenStep_not_contains _ _ hc, hfa]
      exact ⟨ihn, ihm⟩

theorem children_keys_charn (rels : List Relationship) :
    ((depthChildrenMaps rels).children.map Prod.fst).Nodup ∧
    (∀ k, k ∈ (depthChildrenMaps rels).children.map Prod.fst ↔
      k ∈ ((rels.filter (fun r => r.rtype == RelationContains)).map Relationship.source)) := by
  induction rels using List.reverseRecOn with
  | nil => exact ⟨List.nodup_nil, fun k => by simp [depthChildrenMaps]⟩
  | append_singleton l a ih =>
    obtain ⟨ihn, ihm⟩ := ih
    rw [depthChildrenMaps_append]
    by_cases hc : a.rtype = RelationContains
    · have hfa : List.filter (fun r => r.rtype == RelationContains) (l ++ [a]) =
          List.filter (fun r => r.rtype == RelationContains) l ++ [a] := by
        rw [List.filter_append]
        simp [hc]
      rw [depthChildrenStep_children_contains _ _ hc, hfa]
      by_cases hmem : a.source ∈ (depthChildrenMaps l).children.map Prod.fst
      · rw [updateCount_keys_mem _ _ _ hmem]
        refine ⟨ihn, fun k => ?_⟩
        simp only [List.map_append, List.map_cons, List.map_nil, List.mem_append,
          List.mem_cons, List.not_mem_nil, or_false]
        constructor
        · intro hk
          exact Or.inl ((ihm k).mp hk)
        · rintro (hk | hk)
          · exact (ihm k).mpr hk
          · subst hk
            exact hmem
      · rw [updateCount_keys_not_mem _ _ _ hmem]
        constructor
        · rw [List.nodup_append]
          exact ⟨ihn, List.nodup_singleton _,
            fun k hk hk2 => hmem ((List.mem_singleton.mp hk2) ▸ hk)⟩
        · intro k
          simp only [List.map_append, List.map_cons, List.map_nil, List.mem_append,
            List.mem_cons, List.not_mem_nil, or_false]
          exact or_congr (ihm k) Iff.rfl
    · have hfa : List.filter (fun r => r.rtype == RelationContains) (l ++ [a]) =
          List.filter (fun r => r.rtype == RelationContains) l := by
        rw [List.filter_append]
        simp [hc]
      rw [depthChildrenStep_not_contains _ _ hc, hfa]
      exact ⟨ihn, ihm⟩

theorem depths_length_eq (rels : List Relationship) :
    (depthChildrenMaps rels).depths.length =
      (((rels.filter (fun r => r.rtype == RelationContains)).map
        Relationship.target).toFinset).card := by
  obtain ⟨hn, hm⟩ := depths_keys_charn rels
  have h1 : (depthChildrenMaps rels).depths.length =
      ((depthChildrenMaps rels).depths.map Prod.fst).length := (List.length_map _ _).symm
  rw [h1, ← List.toFinset_card_of_nodup hn]
  congr 1
  ext k
  simp only [List.mem_toFinset]
  exact hm k

theorem children_length_eq (rels : List Relationship) :
    (depthChildrenMaps rels).children.length =
      (((rels.filter (fun r => r.rtype == RelationContains)).map
        Relationship.source).toFinset).card := by
  obtain ⟨hn, hm⟩ := children_keys_charn rels
  have h1 : (depthChildrenMaps rels).children.length =
      ((depthChildrenMaps rels).children.map Prod.fst).length := (List.length_map _ _).symm
  rw [h1, ← List.toFinset_card_of_nodup hn]
  congr 1
  ext k
  simp only [List.mem_toFinset]
  exact hm k

theorem Metric_max_depth (s : Structure) :
    Metric (CollectMetrics s) "max_depth" =
      maxVals (depthChildrenMaps s.relationships).depths := by
  by_cases h1 : (depthChildrenMaps s.relationships).depths.length > 0 <;>
    by_cases h2 : (depthChildrenMaps s.relationships).children.length > 0 <;>
      simp [Metric, CollectMetrics, calculateComplexityMetrics, h1, h2, List.find?]

theorem Metric_max_children (s : Structure) :
    Metric (CollectMetrics s) "max_children" =
      maxVals (depthChildrenMaps s.relationships).children := by
  by_cases h1 : (depthChildrenMaps s.relationships).depths.length > 0 <;>
    by_cases h2 : (depthChildrenMaps s.relationships).children.length > 0 <;>
      simp [Metric, CollectMetrics, calculateComplexityMetrics, h1, h2, List.find?]

theorem Metric_avg_depth (s : Structure) :
    Metric (CollectMetrics s) "avg_depth" =
      (if 0 < (depthChildrenMaps s.relationships).depths.length then
        sumVals (depthChildrenMaps s.relationships).depths /
          ((depthChildrenMaps s.relationships).depths.length : Int)
      else 0) := by
  by_cases h1 : (depthChildrenMaps s.relationships).depths.length > 0 <;>
    by_cases h2 : (depthChildrenMaps s.relationships).children.length > 0 <;>
      simp [Metric, CollectMetrics, calculateComplexityMetrics, h1, h2, List.find?]

theorem Metric_avg_children (s : Structure) :
    Metric (CollectMetrics s) "avg_children" =
      (if 0 < (depthChildrenMaps s.relationships).children.length then
        sumVals (depthChildrenMaps s.relationships).children /
          ((depthChildrenMaps s.relationships).children.length : Int)
      else 0) := by
  by_cases h1 : (depthChildrenMaps s.relationships).depths.length > 0 <;>
    by_cases h2 : (depthChildrenMaps s.relationships).children.length > 0 <;>
      simp [Metric, CollectMetrics, calculateComplexityMetrics, h1, h2, List.find?]

/-- C9: CollectMetrics computes, from the contains-relationship subgraph
only, each element's containment depth as its contains-source's depth plus
one (elements that are never a contains-target — the root package included —
implicitly read as depth 0) and each element's direct-child count (the
number of contains relationships it is the source of), and reports the
maximum of each together with averages taken with Go's truncating integer
division over the respective counts of elements that received a depth
(the distinct contains-targets) resp. a child count (the distinct
contains-sources).  The depth equation assumes the spec's well-formed
containment ordering: no later contains edge targets an earlier edge's
source or repeats a target, and no contains edge is a self-loop. -/
theorem claim_C9_metrics (s : Structure)
    (hpair : s.relationships.Pairwise (fun a b =>
      a.rtype = RelationContains → b.rtype = RelationContains →
        a.source ≠ b.target ∧ a.target ≠ b.target))
    (hirr : ∀ r ∈ s.relationships, r.rtype = RelationContains → r.source ≠ r.target) :
    (∀ r ∈ s.relationships, r.rtype = RelationContains →
      lookupCount (depthChildrenMaps s.relationships).depths r.target =
        lookupCount (depthChildrenMaps s.relationships).depths r.source + 1) ∧
    (∀ idv : Nat, (∀ r ∈ s.relationships, r.rtype = RelationContains → r.target ≠ idv) →
      lookupCount (depthChildrenMaps s.relationships).depths idv = 0) ∧
    (∀ idv : Nat, lookupCount (depthChildrenMaps s.relationships).children idv =
      ((s.relationships.filter
        (fun r => r.rtype == RelationContains && r.source == idv)).length : Int)) ∧
    ((depthChildrenMaps s.relationships).depths.length =
      (((s.relationships.filter (fun r => r.rtype == RelationContains)).map
        Relationship.target).toFinset).card) ∧
    ((depthChildrenMaps s.relationships).children.length =
      (((s.relationships.filter (fun r => r.rtype == RelationContains)).map
        Relationship.source).toFinset).card) ∧
    (Metric (CollectMetrics s) "max_depth" =
      maxVals (depthChildrenMaps s.relationships).depths) ∧
    (Metric (CollectMetrics s) "max_children" =
      maxVals (depthChildrenMaps s.relationships).children) ∧
    (Metric (CollectMetrics s) "avg_depth" =
      (if 0 < (depthChildrenMaps s.relationships).depths.length then
        sumVals (depthChildrenMaps s.relationships).depths /
          ((depthChildrenMaps s.relationships).depths.length : Int)
      else 0)) ∧
    (Metric (CollectMetrics s) "avg_children" =
      (if 0 < (depthChildrenMaps s.relationships).children.length then
        sumVals (depthChildrenMaps s.relationships).children /
          ((depthChildrenMaps s.relationships).children.length : Int)
      else 0)) :=
  ⟨depths_contains_eq s.relationships hpair hirr,
   fun idv h => depths_zero_of_not_target s.relationships idv h,
   fun idv => children_count_eq s.relationships idv,
   depths_length_eq s.relationships,
   children_length_eq s.relationships,
   Metric_max_depth s,
   Metric_max_children s,
   Metric_avg_depth s,
   Metric_avg_children s⟩

theorem claim_C9_witness :
    lookupCount (depthChildrenMaps metricsStructure.relationships).depths 2 =
      lookupCount (depthChildrenMaps metricsStructure.relationships).depths 1 + 1 ∧
    Metric (CollectMetrics metricsStructure) "avg_depth" =
      sumVals (depthChildrenMaps metricsStructure.relationships).depths /
        ((depthChildrenMaps metricsStructure.relationships).depths.length : Int) := by
  have h := claim_C9_metrics metricsStructure (by decide) (by decide)
  constructor
  · exact h.1 ⟨RelationContains, 1, 2⟩ (by decide) rfl
  · rw [h.2.2.2.2.2.2.2.1]
    rw [if_pos (by decide)]

/-! ### Relationship-uniqueness lemmas (for claim C2) -/

mutual

theorem analyzeNode_nodup : ∀ (node : AstNode) (st : BuildSt),
    st.str.relationships.Nodup → ((analyzeNode node st).2).str.relationships.Nodup
  | .mk pos ntype children attrs, st, h => by
    rw [analyzeNode]
    by_cases hb : ntype = "Block"
    · simp only [if_pos hb]
      exact analyzeBlockChildren_nodup children st h
    · simp only [if_neg hb]
      by_cases he : mapNodeType ntype = ""
      · simp only [if_pos he]
        exact h
      · simp only [if_neg he]
        exact analyzeElemChildren_nodup _ children _ h

theorem analyzeBlockChildren_nodup : ∀ (children : List AstNode) (st : BuildSt),
    st.str.relationships.Nodup → (analyzeBlockChildren children st).str.relationships.Nodup
  | [], _, h => h
  | child :: rest, st, h => by
    rw [analyzeBlockChildren]
    have h1 := analyzeNode_nodup child st h
    refine analyzeBlockChildren_nodup rest _ ?_
    dsimp only
    cases hres : (analyzeNode child st).1 with
    | none => exact h1
    | some ce =>
      cases hpkg : findPackage (analyzeNode child st).2.str.elements with
      | none => exact h1
      | some pkg => exact addRelIfNew_nodup _ _ h1

theorem analyzeElemChildren_nodup : ∀ (element : Element) (children : List AstNode)
    (st : BuildSt), st.str.relationships.Nodup →
    (analyzeElemChildren element children st).str.relationships.Nodup
  | _, [], _, h => h
  | element, child :: rest, st, h => by
    rw [analyzeElemChildren]
    have h1 := analyzeNode_nodup child st h
    refine analyzeElemChildren_nodup element rest _ ?_
    dsimp only
    cases hres : (analyzeNode child st).1 with
    | none => exact h1
    | some ce =>
      cases hsrc : (if element.etype = ElementPackage then some element
          else findPackage (analyzeNode child st).2.str.elements) with
      | none => exact h1
      | some src => exact addRelIfNew_nodup _ _ h1

end

mutual

theorem addTypeReferenceT_nodup (elements : List Element) (sourceId : Nat) :
    ∀ (t : TypeInfo) (rels : List Relationship), rels.Nodup →
      (addTypeReferenceT elements sourceId rels t).Nodup
  | .mk kind name elemType keyType valueType tp ta cs itp, rels, h => by
    rw [addTypeReferenceT]
    split
    · exact addTypeReference_nodup elements sourceId elemType rels h
    · split
      · exact addTypeReference_nodup elements sourceId elemType rels h
      · split
        · exact addTypeReference_nodup elements sourceId valueType _
            (addTypeReference_nodup elements sourceId keyType rels h)
        · split
          · split
            · exact h
            · split
              · exact addRelIfNew_nodup _ _ h
              · split
                · exact addRelIfNew_nodup _ _ h
                · exact h
          · exact h
termination_by structural t _ _ => t

theorem addTypeReference_nodup (elements : List Element) (sourceId : Nat) :
    ∀ (ot : Option TypeInfo) (rels : List Relationship), rels.Nodup →
      (addTypeReference elements sourceId rels ot).Nodup
  | none, _, h => h
  | some t, rels, h => addTypeReferenceT_nodup elements sourceId t rels h
termination_by structural ot _ _ => ot

end

theorem foldl_addTypeReference_nodup (elements : List Element) (eid : Nat)
    (l : List (Option TypeInfo)) (rels : List Relationship) (h : rels.Nodup) :
    (l.foldl (fun rels t => addTypeReference elements eid rels t) rels).Nodup :=
  foldl_preserve _ (fun acc x hx => addTypeReference_nodup elements eid x acc hx) l rels h

theorem detectTypeReferences_nodup (s : Structure) (h : s.relationships.Nodup) :
    (detectTypeReferences s).relationships.Nodup := by
  unfold detectTypeReferences
  dsimp only
  refine foldl_preserve _ ?hf4 _ _
    (foldl_preserve _ ?hf3 _ _ (foldl_preserve _ ?hf2 _ _ (foldl_preserve _ ?hf1 _ _ h)))
  case hf1 =>
    intro rels typ hr
    cases hfs : attrMapList typ.attributes "fields" with
    | none => exact hr
    | some fields =>
      refine foldl_preserve _ ?_ _ _ hr
      intro acc field hacc
      cases hft : attrTypeInfo field "type" with
      | none => exact hacc
      | some fieldType => exact addTypeReference_nodup _ _ _ _ hacc
  case hf2 =>
    intro rels fn hr
    cases hsig : attrMap fn.attributes "signature" with
    | none => exact hr
    | some sig =>
      dsimp only
      have h1 : (match attrTypeList sig "params" with
          | some params => params.foldl
              (fun rels param => addTypeReference s.elements fn.id rels param) rels
          | none => rels).Nodup := by
        cases hpar : attrTypeList sig "params" with
        | none => exact hr
        | some params => exact foldl_addTypeReference_nodup _ _ _ _ hr
      cases hret : attrTypeList sig "returns" with
      | none => exact h1
      | some returns => exact foldl_addTypeReference_nodup _ _ _ _ h1
  case hf3 =>
    intro rels m hr
    cases hsig : attrMap m.attributes "signature" with
    | none => exact hr
    | some sig =>
      dsimp only
      have h0 : (match attrTypeInfo sig "receiver_type" with
          | some (some recv) => addTypeReference s.elements m.id rels (some recv)
          | _ => rels).Nodup := by
        cases hrcv : attrTypeInfo sig "receiver_type" with
        | none => exact hr
        | some orecv =>
          cases orecv with
          | none => exact hr
          | some recv => exact addTypeReference_nodup _ _ _ _ hr
      have h1 : (match attrTypeList sig "params" with
          | some params => params.foldl
              (fun rels param => addTypeReference s.elements m.id rels param)
              (match attrTypeInfo sig "receiver_type" with
               | some (some recv) => addTypeReference s.elements m.id rels (some recv)
               | _ => rels)
          | none =>
              (match attrTypeInfo sig "receiver_type" with
               | some (some recv) => addTypeReference s.elements m.id rels (some recv)
               | _ => rels)).Nodup := by
        cases hpar : attrTypeList sig "params" with
        | none => exact h0
        | some params => exact foldl_addTypeReference_nodup _ _ _ _ h0
      cases hret : attrTypeList sig "returns" with
      | none => exact h1
      | some returns => exact foldl_addTypeReference_nodup _ _ _ _ h1
  case hf4 =>
    intro rels iface hr
    have h1 : (match attrMapList iface.attributes "methods" with
        | some methods => methods.foldl (fun rels m =>
            match attrMap m "signature" with
            | some sig =>
              let rels :=
                match attrTypeList sig "params" with
                | some params => params.foldl
                    (fun rels param => addTypeReference s.elements iface.id rels param) rels
                | none => rels
              match attrTypeList sig "returns" with
              | some returns => returns.foldl
                  (fun rels ret => addTypeReference s.elements iface.id rels ret) rels
              | none => rels
            | none => rels) rels
        | none => rels).Nodup := by
      cases hms : attrMapList iface.attributes "methods" with
      | none => exact hr
      | some methods =>
        refine foldl_preserve _ ?_ _ _ hr
        intro acc m hacc
        cases hsig : attrMap m "signature" with
        | none => exact hacc
        | some sig =>
          dsimp only
          have h2 : (match attrTypeList sig "params" with
              | some params => params.foldl
                  (fun rels param => addTypeReference s.elements iface.id rels param) acc
              | none => acc).Nodup := by
            cases hpar : attrTypeList sig "params" with
            | none => exact hacc
            | some params => exact foldl_addTypeReference_nodup _ _ _ _ hacc
          cases hret : attrTypeList sig "returns" with
          | none => exact h2
          | some returns => exact foldl_addTypeReference_nodup _ _ _ _ h2
    cases hemb : attrMapList iface.attributes "embedded" with
    | none => exact h1
    | some embedded =>
      refine foldl_preserve _ ?_ _ _ h1
      intro acc embed hacc
      cases het : attrTypeInfo embed "type" with
      | none => exact hacc
      | some embedType => exact addTypeReference_nodup _ _ _ _ hacc

theorem detectMethodReceivers_nodup (s : Structure) (h : s.relationships.Nodup) :
    (detectMethodReceivers s).relationships.Nodup := by
  unfold detectMethodReceivers
  dsimp only
  refine foldl_preserve _ ?_ _ _ h
  intro rels method hr
  cases hrcv : attrTypeInfo method.attributes "receiver_type" with
  | none => exact hr
  | some orecv =>
    cases orecv with
    | none => exact hr
    | some recv =>
      dsimp only
      cases hft : findTypeByName s.elements (resolveTypeName recv) with
      | none => exact hr
      | some recvType => exact addRelIfNew_nodup _ _ hr

theorem detectInterfaceEmbeddings_nodup (s out : Structure)
    (heq : detectInterfaceEmbeddings s = .ok out) (h : s.relationships.Nodup) :
    out.relationships.Nodup := by
  unfold detectInterfaceEmbeddings at heq
  rw [bind_eq_res_bind] at heq
  obtain ⟨rels, hrels, hpure⟩ := res_bind_ok heq
  have hout : { s with relationships := rels } = out := Res.ok.inj hpure
  rw [← hout]
  show rels.Nodup
  refine foldlM_ok_preserve _ ?_ _ _ _ h hrels
  intro acc iface r hacc hstep
  cases hm : attrMapList iface.attributes "embedded" with
  | none =>
    rw [hm] at hstep
    cases hstep
    exact hacc
  | some embedded =>
    rw [hm] at hstep
    refine foldlM_ok_preserve _ ?_ _ _ _ hacc hstep
    intro acc2 embed r2 hacc2 hs2
    cases het : attrTypeInfo embed "type" with
    | none =>
      rw [het] at hs2
      cases hs2
      exact hacc2
    | some oembed =>
      cases oembed with
      | none =>
        rw [het] at hs2
        dsimp only at hs2
        cases hs2
      | some embedType =>
        rw [het] at hs2
        dsimp only at hs2
        cases hft : findTypeByName s.elements embedType.name with
        | none =>
          rw [hft] at hs2
          cases hs2
          exact hacc2
        | some target =>
          rw [hft] at hs2
          dsimp only at hs2
          by_cases hi : (target.etype == ElementInterface) = true
          · rw [if_pos hi] at hs2
            cases hs2
            exact addRelIfNew_nodup _ _ hacc2
          · rw [if_neg hi] at hs2
            cases hs2
            exact hacc2

theorem detectImplTypeLoop_nodup (fuel : Nat) (elements : List Element) (iface : Element)
    (im : List Attrs) : ∀ (types : List Element) (rels out : List Relationship),
    detectImplTypeLoop fuel elements iface im types rels = .ok out → rels.Nodup → out.Nodup
  | [], rels, out, heq, h => by
    rw [detectImplTypeLoop] at heq
    cases heq
    exact h
  | typ :: rest, rels, out, heq, h => by
    rw [detectImplTypeLoop] at heq
    rw [bind_eq_res_bind] at heq
    obtain ⟨tm, htm, heq2⟩ := res_bind_ok heq
    rw [bind_eq_res_bind] at heq2
    obtain ⟨b, hb, heq3⟩ := res_bind_ok heq2
    cases b with
    | false => exact detectImplTypeLoop_nodup fuel elements iface im rest rels out heq3 h
    | true =>
      exact detectImplTypeLoop_nodup fuel elements iface im rest _ out heq3
        (addRelIfNew_nodup _ _ h)

theorem detectImplIfaceLoop_nodup (fuel : Nat) (elements : List Element) :
    ∀ (ifaces : List Element) (rels out : List Relationship),
    detectImplIfaceLoop fuel elements ifaces rels = .ok out → rels.Nodup → out.Nodup
  | [], rels, out, heq, h => by
    rw [detectImplIfaceLoop] at heq
    cases heq
    exact h
  | iface :: rest, rels, out, heq, h => by
    rw [detectImplIfaceLoop] at heq
    rw [bind_eq_res_bind] at heq
    obtain ⟨im, him, heq2⟩ := res_bind_ok heq
    by_cases hempty : im.isEmpty = true
    · rw [if_pos hempty] at heq2
      exact detectImplIfaceLoop_nodup fuel elements rest rels out heq2 h
    · rw [if_neg hempty] at heq2
      rw [bind_eq_res_bind] at heq2
      obtain ⟨rels2, hrels2, heq3⟩ := res_bind_ok heq2
      exact detectImplIfaceLoop_nodup fuel elements rest rels2 out heq3
        (detectImplTypeLoop_nodup fuel elements iface im _ rels rels2 hrels2 h)

theorem detectInterfaceImplementations_nodup (fuel : Nat) (s out : Structure)
    (heq : detectInterfaceImplementations fuel s = .ok out)
    (h : s.relationships.Nodup) : out.relationships.Nodup := by
  unfold detectInterfaceImplementations at heq
  rw [bind_eq_res_bind] at heq
  obtain ⟨rels, hrels, hpure⟩ := res_bind_ok heq
  have hout : { s with relationships := rels } = out := Res.ok.inj hpure
  rw [← hout]
  show rels.Nodup
  exact detectImplIfaceLoop_nodup fuel s.elements _ s.relationships rels hrels h

theorem detectComposition_nodup (s out : Structure)
    (heq : detectComposition s = .ok out) (h : s.relationships.Nodup) :
    out.relationships.Nodup := by
  unfold detectComposition at heq
  rw [bind_eq_res_bind] at heq
  obtain ⟨rels, hrels, hpure⟩ := res_bind_ok heq
  have hout : { s with relationships := rels } = out := Res.ok.inj hpure
  rw [← hout]
  show rels.Nodup
  refine foldlM_ok_preserve _ ?_ _ _ _ h hrels
  intro acc typ r hacc hstep
  cases hfs : attrMapList typ.attributes "fields" with
  | none =>
    rw [hfs] at hstep
    cases hstep
    exact hacc
  | some fields =>
    rw [hfs] at hstep
    refine foldlM_ok_preserve _ ?_ _ _ _ hacc hstep
    intro acc2 field r2 hacc2 hs2
    cases hb : attrBool field "embedded" with
    | none =>
      rw [hb] at hs2
      cases hs2
      exact hacc2
    | some bb =>
      cases bb with
      | false =>
        rw [hb] at hs2
        cases hs2
        exact hacc2
      | true =>
        rw [hb] at hs2
        cases het : attrTypeInfo field "type" with
        | none =>
          rw [het] at hs2
          cases hs2
          exact hacc2
        | some oft =>
          cases oft with
          | none =>
            rw [het] at hs2
            dsimp only at hs2
            cases hs2
          | some fieldType =>
            rw [het] at hs2
            dsimp only at hs2
            cases hft : findTypeByName s.elements (resolveTypeName fieldType) with
            | none =>
              rw [hft] at hs2
              cases hs2
              exact hacc2
            | some embedded =>
              rw [hft] at hs2
              cases hs2
              exact addRelIfNew_nodup _ _ hacc2

theorem detectPatterns_nodup (fuel : Nat) (s out : Structure)
    (heq : detectPatterns fuel s = .ok out) (h : s.relationships.Nodup) :
    out.relationships.Nodup := by
  unfold detectPatterns at heq
  dsimp only at heq
  rw [bind_eq_res_bind] at heq
  obtain ⟨s3, h3, heq2⟩ := res_bind_ok heq
  rw [bind_eq_res_bind] at heq2
  obtain ⟨s4, h4, heq3⟩ := res_bind_ok heq2
  have hn2 : (detectMethodReceivers (detectTypeReferences s)).relationships.Nodup :=
    detectMethodReceivers_nodup _ (detectTypeReferences_nodup s h)
  have hn3 : s3.relationships.Nodup := detectInterfaceEmbeddings_nodup _ _ h3 hn2
  have hn4 : s4.relationships.Nodup := detectInterfaceImplementations_nodup fuel _ _ h4 hn3
  exact detectComposition_nodup _ _ heq3 hn4

/-- C2 counterexample: the uniqueness invariant fails on two insertion
paths.  The dependency analyzer's addTypeReference performs no
check-then-insert, so a struct with two fields of the same named type yields
the same (from, to, kind) dependency twice; and the structure Merge appends
all donor relationships without deduplication, so merging an analysis that
shares a relationship with the base duplicates the (kind, source, target)
triple. -/
theorem claim_C2_counterexample :
    (DepAnalyze twoFieldTree = .ok (okGraph (DepAnalyze twoFieldTree)) ∧
     (okGraph (DepAnalyze twoFieldTree)).dependencies.map depKey =
       ["main.T:main.U:reference", "main.T:main.U:reference"] ∧
     ¬ ((okGraph (DepAnalyze twoFieldTree)).dependencies.map depKey).Nodup) ∧
    (MergeStructure (some tinyDonor) (some tinyDonor) =
       .ok (okMerged (MergeStructure (some tinyDonor) (some tinyDonor))) ∧
     (okMerged (MergeStructure (some tinyDonor) (some tinyDonor))).str.relationships =
       [⟨RelationContains, 0, 1⟩, ⟨RelationContains, 0, 1⟩] ∧
     ¬ (okMerged (MergeStructure (some tinyDonor) (some tinyDonor))).str.relationships.Nodup) :=
  ⟨⟨rfl, rfl, by decide⟩, ⟨rfl, rfl, by decide⟩⟩

/-- C2 (amended): within a single run of the structure analyzer, every
insertion path does check-then-insert (hasRelationship before append), so
the relationship list of any successful analysis is duplicate-free as a list
of (kind, source, target) triples.  (The dependency analyzer's
addTypeReference and both Merge operations do not re-check, see the
counterexample.) -/
theorem claim_C2_amended (fuel : Nat) (root : AstNode) (m : Analysis)
    (h : AnalyzeStructure fuel root = .ok m) :
    m.str.relationships.Nodup := by
  unfold AnalyzeStructure at h
  dsimp only at h
  cases hd : detectPatterns fuel
      ((analyzeNode root ⟨⟨[], []⟩, 0⟩).2).str with
  | ok s =>
    rw [hd] at h
    have hm : { language := "go", str := s } = m := Res.ok.inj h
    rw [← hm]
    show s.relationships.Nodup
    exact detectPatterns_nodup fuel _ _ hd (analyzeNode_nodup root _ List.nodup_nil)
  | err msg =>
    rw [hd] at h
    cases h
  | crash =>
    rw [hd] at h
    cases h
  | diverge =>
    rw [hd] at h
    cases h

theorem claim_C2_amended_witness :
    (okAnalysis (AnalyzeStructure 100 sampleTree)).str.relationships.Nodup :=
  claim_C2_amended 100 sampleTree (okAnalysis (AnalyzeStructure 100 sampleTree)) rfl

/-! ### Interface-implementation lemmas (for claim C1) -/

theorem mem_addRelIfNew_iff (rels : List Relationship) (rel r : Relationship) :
    r ∈ addRelIfNew rels rel ↔ r ∈ rels ∨ r = rel :=
  ⟨mem_addRelIfNew rels rel r,
   fun h => h.elim (fun h1 => addRelIfNew_sub _ _ h1)
     (fun h1 => by rw [h1]; exact addRelIfNew_mem_self _ _)⟩

theorem findMatchingMethod_spec (imethod : Attrs) :
    ∀ (tm : List Attrs) (b : Bool), findMatchingMethod imethod tm = .ok b →
      (b = true ↔ specHasMatch tm imethod)
  | [], b, h => by
    rw [findMatchingMethod] at h
    cases h
    simp [specHasMatch]
  | tmethod :: rest, b, h => by
    rw [findMatchingMethod] at h
    rw [bind_eq_res_bind] at h
    obtain ⟨nameEq, hname, h2⟩ := res_bind_ok h
    cases nameEq with
    | false =>
      have ih := findMatchingMethod_spec imethod rest b h2
      constructor
      · intro hb
        obtain ⟨tme, htme, hprops⟩ := ih.mp hb
        exact ⟨tme, List.mem_cons_of_mem _ htme, hprops⟩
      · intro hspec
        apply ih.mpr
        obtain ⟨tme, htme, hany, hsigs⟩ := hspec
        rcases List.mem_cons.mp htme with rfl | hmem
        · exact absurd (hname.symm.trans hany) (by simp)
        · exact ⟨tme, hmem, hany, hsigs⟩
    | true =>
      rw [if_pos rfl] at h2
      cases hsig1 : attrMap tmethod "signature" with
      | none =>
        rw [hsig1] at h2
        cases h2
      | some sig1 =>
        cases hsig2 : attrMap imethod "signature" with
        | none =>
          rw [hsig1, hsig2] at h2
          cases h2
        | some sig2 =>
          rw [hsig1, hsig2] at h2
          dsimp only at h2
          by_cases hm : signatureMatches sig1 sig2 = true
          · rw [if_pos hm] at h2
            cases h2
            constructor
            · intro _
              exact ⟨tmethod, List.mem_cons_self _ _, hname, sig1, sig2, hsig1, hsig2, hm⟩
            · intro _
              rfl
          · rw [if_neg hm] at h2
            have ih := findMatchingMethod_spec imethod rest b h2
            constructor
            · intro hb
              obtain ⟨tme, htme, hprops⟩ := ih.mp hb
              exact ⟨tme, List.mem_cons_of_mem _ htme, hprops⟩
            · intro hspec
              apply ih.mpr
              obtain ⟨tme, htme, hany, s1, s2, hs1, hs2, hsm⟩ := hspec
              rcases List.mem_cons.mp htme with rfl | hmem
              · rw [hsig1] at hs1
                rw [hsig2] at hs2
                cases hs1
                cases hs2
                exact absurd hsm hm
              · exact ⟨tme, hmem, hany, s1, s2, hs1, hs2, hsm⟩

theorem implementsAllMethods_spec (tm : List Attrs) :
    ∀ (im : List Attrs) (b : Bool), implementsAllMethods tm im = .ok b →
      (b = true ↔ ∀ ime ∈ im, specHasMatch tm ime)
  | [], b, h => by
    rw [implementsAllMethods] at h
    cases h
    simp
  | imethod :: rest, b, h => by
    rw [implementsAllMethods] at h
    rw [bind_eq_res_bind] at h
    obtain ⟨found, hfound, h2⟩ := res_bind_ok h
    have hspec1 := findMatchingMethod_spec imethod tm found hfound
    cases found with
    | false =>
      cases h2
      refine ⟨fun hb => absurd hb (by simp), fun hall => ?_⟩
      exact hspec1.mpr (hall imethod (List.mem_cons_self _ _))
    | true =>
      have ih := implementsAllMethods_spec tm rest b h2
      constructor
      · intro hb ime hime
        rcases List.mem_cons.mp hime with rfl | hmem
        · exact hspec1.mp rfl
        · exact ih.mp hb ime hmem
      · intro hall
        exact ih.mpr (fun ime hime => hall ime (List.mem_cons_of_mem _ hime))

theorem typeImplementsInterface_spec (im tm : List Attrs) (b : Bool)
    (h : typeImplementsInterface im tm = .ok b) :
    b = true ↔ specImplements im tm := by
  unfold typeImplementsInterface at h
  by_cases he : tm.isEmpty = true
  · rw [if_pos he] at h
    cases h
    refine ⟨fun hb => absurd hb (by simp), fun hspec => ?_⟩
    exact absurd (List.isEmpty_iff.mp he) hspec.1
  · rw [if_neg he] at h
    rw [implementsAllMethods_spec tm im b h]
    constructor
    · intro hall
      exact ⟨fun hnil => he (by simp [hnil]), hall⟩
    · exact And.right

theorem detectImplTypeLoop_mem (fuel : Nat) (elements : List Element) (iface : Element)
    (im : List Attrs) :
    ∀ (types : List Element) (rels out : List Relationship),
    detectImplTypeLoop fuel elements iface im types rels = .ok out →
    ∀ r, r ∈ out ↔ (r ∈ rels ∨ ∃ typ ∈ types,
      r = ⟨RelationImplements, typ.id, iface.id⟩ ∧
      ∃ tm, typeMethods fuel elements typ = .ok tm ∧
        typeImplementsInterface im tm = .ok true)
  | [], rels, out, heq, r => by
    rw [detectImplTypeLoop] at heq
    cases heq
    simp
  | typ :: rest, rels, out, heq, r => by
    rw [detectImplTypeLoop] at heq
    rw [bind_eq_res_bind] at heq
    obtain ⟨tm, htm, heq2⟩ := res_bind_ok heq
    rw [bind_eq_res_bind] at heq2
    obtain ⟨b, hb, heq3⟩ := res_bind_ok heq2
    have ih := detectImplTypeLoop_mem fuel elements iface im rest _ out heq3 r
    cases b with
    | true =>
      constructor
      · intro hr
        rcases ih.mp hr with h1 | ⟨typ', hmem, hrest⟩
        · rcases mem_addRelIfNew rels _ r h1 with h2 | h2
          · exact Or.inl h2
          · exact Or.inr ⟨typ, List.mem_cons_self _ _, h2, tm, htm, hb⟩
        · exact Or.inr ⟨typ', List.mem_cons_of_mem _ hmem, hrest⟩
      · intro hr
        apply ih.mpr
        rcases hr with h1 | ⟨typ', hmem, heqr, tm', htm', htii⟩
        · exact Or.inl (addRelIfNew_sub _ _ h1)
        · rcases List.mem_cons.mp hmem with rfl | hmem2
          · exact Or.inl (by rw [heqr]; exact addRelIfNew_mem_self _ _)
          · exact Or.inr ⟨typ', hmem2, heqr, tm', htm', htii⟩
    | false =>
      constructor
      · intro hr
        rcases ih.mp hr with h1 | ⟨typ', hmem, hrest⟩
        · exact Or.inl h1
        · exact Or.inr ⟨typ', List.mem_cons_of_mem _ hmem, hrest⟩
      · intro hr
        apply ih.mpr
        rcases hr with h1 | ⟨typ', hmem, heqr, tm', htm', htii⟩
        · exact Or.inl h1
        · rcases List.mem_cons.mp hmem with rfl | hmem2
          · rw [htm] at htm'
            cases htm'
            exact absurd (hb.symm.trans htii) (by simp)
          · exact Or.inr ⟨typ', hmem2, heqr, tm', htm', htii⟩

theorem detectImplTypeLoop_total (fuel : Nat) (elements : List Element) (iface : Element)
    (im : List Attrs) :
    ∀ (types : List Element) (rels out : List Relationship),
    detectImplTypeLoop fuel elements iface im types rels = .ok out →
    ∀ typ ∈ types, ∃ tm b, typeMethods fuel elements typ = .ok tm ∧
      typeImplementsInterface im tm = .ok b
  | [], _, _, _, typ, hmem => absurd hmem (List.not_mem_nil typ)
  | typ0 :: rest, rels, out, heq, typ, hmem => by
    rw [detectImplTypeLoop] at heq
    rw [bind_eq_res_bind] at heq
    obtain ⟨tm, htm, heq2⟩ := res_bind_ok heq
    rw [bind_eq_res_bind] at heq2
    obtain ⟨b, hb, heq3⟩ := res_bind_ok heq2
    rcases List.mem_cons.mp hmem with rfl | hmem2
    · exact ⟨tm, b, htm, hb⟩
    · exact detectImplTypeLoop_total fuel elements iface im rest _ out heq3 typ hmem2

theorem detectImplIfaceLoop_mem (fuel : Nat) (elements : List Element) :
    ∀ (ifaces : List Element) (rels out : List Relationship),
    detectImplIfaceLoop fuel elements ifaces rels = .ok out →
    ∀ r, r ∈ out ↔ (r ∈ rels ∨ ∃ iface ∈ ifaces, ∃ im,
      interfaceMethods fuel elements iface = .ok im ∧ im ≠ [] ∧
      ∃ typ ∈ findElementsByType elements ElementTypeDecl,
        r = ⟨RelationImplements, typ.id, iface.id⟩ ∧
        ∃ tm, typeMethods fuel elements typ = .ok tm ∧
          typeImplementsInterface im tm = .ok true)
  | [], rels, out, heq, r => by
    rw [detectImplIfaceLoop] at heq
    cases heq
    simp
  | iface :: rest, rels, out, heq, r => by
    rw [detectImplIfaceLoop] at heq
    rw [bind_eq_res_bind] at heq
    obtain ⟨im, him, heq2⟩ := res_bind_ok heq
    by_cases hempty : im.isEmpty = true
    · rw [if_pos hempty] at heq2
      have ih := detectImplIfaceLoop_mem fuel elements rest rels out heq2 r
      rw [ih]
      constructor
      · rintro (h1 | ⟨iface', hmem, hrest⟩)
        · exact Or.inl h1
        · exact Or.inr ⟨iface', List.mem_cons_of_mem _ hmem, hrest⟩
      · rintro (h1 | ⟨iface', hmem, im', him', hne, hrest⟩)
        · exact Or.inl h1
        · rcases List.mem_cons.mp hmem with rfl | hmem2
          · rw [him] at him'
            cases him'
            exact absurd (List.isEmpty_iff.mp hempty) hne
          · exact Or.inr ⟨iface', hmem2, im', him', hne, hrest⟩
    · rw [if_neg hempty] at heq2
      rw [bind_eq_res_bind] at heq2
      obtain ⟨rels2, hrels2, heq3⟩ := res_bind_ok heq2
      have htype := detectImplTypeLoop_mem fuel elements iface im _ rels rels2 hrels2
      have ih := detectImplIfaceLoop_mem fuel elements rest rels2 out heq3 r
      rw [ih]
      constructor
      · rintro (h1 | ⟨iface', hmem, hrest⟩)
        · rcases (htype r).mp h1 with h2 | ⟨typ, hmemt, heqr, tmfacts⟩
          · exact Or.inl h2
          · exact Or.inr ⟨iface, List.mem_cons_self _ _, im, him,
              fun hnil => hempty (by simp [hnil]), typ, hmemt, heqr, tmfacts⟩
        · exact Or.inr ⟨iface', List.mem_cons_of_mem _ hmem, hrest⟩
      · rintro (h1 | ⟨iface', hmem, im', him', hne, hrest⟩)
        · exact Or.inl ((htype r).mpr (Or.inl h1))
        · rcases List.mem_cons.mp hmem with rfl | hmem2
          · rw [him] at him'
            cases him'
            exact Or.inl ((htype r).mpr (Or.inr hrest))
          · exact Or.inr ⟨iface', hmem2, im', him', hne, hrest⟩

theorem detectImplIfaceLoop_total (fuel : Nat) (elements : List Element) :
    ∀ (ifaces : List Element) (rels out : List Relationship),
    detectImplIfaceLoop fuel elements ifaces rels = .ok out →
    ∀ iface ∈ ifaces, ∃ im, interfaceMethods fuel elements iface = .ok im ∧
      (im.isEmpty = false →
        ∀ typ ∈ findElementsByType elements ElementTypeDecl,
          ∃ tm b, typeMethods fuel elements typ = .ok tm ∧
            typeImplementsInterface im tm = .ok b)
  | [], _, _, _, iface, hmem => absurd hmem (List.not_mem_nil iface)
  | iface0 :: rest, rels, out, heq, iface, hmem => by
    rw [detectImplIfaceLoop] at heq
    rw [bind_eq_res_bind] at heq
    obtain ⟨im, him, heq2⟩ := res_bind_ok heq
    rcases List.mem_cons.mp hmem with rfl | hmem2
    · refine ⟨im, him, fun hne => ?_⟩
      rw [hne] at heq2
      rw [if_neg (show ¬(false = true) by simp)] at heq2
      rw [bind_eq_res_bind] at heq2
      obtain ⟨rels2, hrels2, heq3⟩ := res_bind_ok heq2
      exact detectImplTypeLoop_total fuel elements iface im _ rels rels2 hrels2
    · by_cases hempty : im.isEmpty = true
      · rw [if_pos hempty] at heq2
        exact detectImplIfaceLoop_total fuel elements rest rels out heq2 iface hmem2
      · rw [if_neg hempty] at heq2
        rw [bind_eq_res_bind] at heq2
        obtain ⟨rels2, hrels2, heq3⟩ := res_bind_ok heq2
        exact detectImplIfaceLoop_total fuel elements rest rels2 out heq3 iface hmem2

/-- C1 (amended): for a successful interface-implementation pass, the
implements relationship (type T, interface I) is recorded exactly for the
pairs where I's full method set (own methods plus, recursively, embedded
interfaces') is non-empty, T's full method set (own methods plus,
recursively, embedded types') is non-empty, and every method of I's set has
a same-name type method whose signature matches under the analyzer's
comparison — which descends only through pointer, slice and map type
constructors and compares all other kinds (channels, arrays, functions,
generics) by kind and name only, coarser than type equality.  In particular
an interface with an empty full method set is satisfied by no type (even
vacuously), and a type with zero methods satisfies nothing. -/
theorem claim_C1_amended (fuel : Nat) (s out : Structure)
    (heq : detectInterfaceImplementations fuel s = .ok out) (r : Relationship) :
    r ∈ out.relationships ↔
      (r ∈ s.relationships ∨
       ∃ iface ∈ findElementsByType s.elements ElementInterface,
       ∃ typ ∈ findElementsByType s.elements ElementTypeDecl,
         r = ⟨RelationImplements, typ.id, iface.id⟩ ∧
         ∃ im tm, interfaceMethods fuel s.elements iface = .ok im ∧ im ≠ [] ∧
           typeMethods fuel s.elements typ = .ok tm ∧ specImplements im tm) := by
  unfold detectInterfaceImplementations at heq
  rw [bind_eq_res_bind] at heq
  obtain ⟨rels, hrels, hpure⟩ := res_bind_ok heq
  have hout : { s with relationships := rels } = out := Res.ok.inj hpure
  rw [← hout]
  show r ∈ rels ↔ _
  rw [detectImplIfaceLoop_mem fuel s.elements _ s.relationships rels hrels r]
  refine or_congr Iff.rfl ⟨?_, ?_⟩
  · rintro ⟨iface, hmemi, im, him, hne, typ, hmemt, heqr, tm, htm, htii⟩
    exact ⟨iface, hmemi, typ, hmemt, heqr, im, tm, him, hne,
      htm, (typeImplementsInterface_spec im tm true htii).mp rfl⟩
  · rintro ⟨iface, hmemi, typ, hmemt, heqr, im, tm, him, hne, htm, hspec⟩
    obtain ⟨im', him', htotal⟩ :=
      detectImplIfaceLoop_total fuel s.elements _ s.relationships rels hrels iface hmemi
    rw [him] at him'
    cases him'
    obtain ⟨tm', b, htm', htii⟩ :=
      htotal (by cases him2 : im.isEmpty with
        | false => rfl
        | true => exact absurd (List.isEmpty_iff.mp him2) hne) typ hmemt
    rw [htm] at htm'
    cases htm'
    have hb : b = true := (typeImplementsInterface_spec im tm b htii).mpr hspec
    rw [hb] at htii
    exact ⟨iface, hmemi, im, him, hne, typ, hmemt, heqr, tm, htm, htii⟩

theorem claim_C1_witness :
    (⟨RelationImplements, 2, 1⟩ : Relationship) ∈
      (okStructure (detectInterfaceImplementations 100
        ⟨(okAnalysis (AnalyzeStructure 100 chanTree)).str.elements, []⟩)).relationships ∧
    ∃ iface ∈ findElementsByType (okAnalysis (AnalyzeStructure 100 chanTree)).str.elements
        ElementInterface,
    ∃ typ ∈ findElementsByType (okAnalysis (AnalyzeStructure 100 chanTree)).str.elements
        ElementTypeDecl,
      (⟨RelationImplements, 2, 1⟩ : Relationship) = ⟨RelationImplements, typ.id, iface.id⟩ ∧
      ∃ im tm, interfaceMethods 100 (okAnalysis (AnalyzeStructure 100 chanTree)).str.elements
          iface = .ok im ∧ im ≠ [] ∧
        typeMethods 100 (okAnalysis (AnalyzeStructure 100 chanTree)).str.elements typ =
          .ok tm ∧ specImplements im tm := by
  have h := claim_C1_amended 100
    ⟨(okAnalysis (AnalyzeStructure 100 chanTree)).str.elements, []⟩
    (okStructure (detectInterfaceImplementations 100
      ⟨(okAnalysis (AnalyzeStructure 100 chanTree)).str.elements, []⟩))
    rfl ⟨RelationImplements, 2, 1⟩
  have hmem : (⟨RelationImplements, 2, 1⟩ : Relationship) ∈
      (okStructure (detectInterfaceImplementations 100
        ⟨(okAnalysis (AnalyzeStructure 100 chanTree)).str.elements, []⟩)).relationships := by
    decide
  refine ⟨hmem, ?_⟩
  rcases h.mp hmem with h1 | h1
  · exact absurd h1 (List.not_mem_nil _)
  · exact h1

/-- C1 counterexample: the spec's satisfaction rule disagrees with the code
on both sides.  An empty interface (empty full method set) is skipped by the
pass, so no implements edge is recorded even though every type vacuously has
a matching method for each of its (zero) methods — while the unit's only
type does have methods; and for a non-empty interface the analyzer records
implements although the parameter-type lists are not equal: `chan int`
versus `chan string` compare as matching because typeMatches never descends
into a channel's element type. -/
theorem claim_C1_counterexample :
    (AnalyzeStructure 100 emptyIfaceTree =
       .ok (okAnalysis (AnalyzeStructure 100 emptyIfaceTree)) ∧
     (okAnalysis (AnalyzeStructure 100 emptyIfaceTree)).str.relationships.all
       (fun r => r.rtype != RelationImplements) = true ∧
     (findElementsByType (okAnalysis (AnalyzeStructure 100 emptyIfaceTree)).str.elements
       ElementInterface).map (fun i =>
         match interfaceMethods 100
             (okAnalysis (AnalyzeStructure 100 emptyIfaceTree)).str.elements i with
         | .ok l => l.isEmpty
         | _ => false) = [true] ∧
     (findElementsByType (okAnalysis (AnalyzeStructure 100 emptyIfaceTree)).str.elements
       ElementTypeDecl).map (fun t =>
         match typeMethods 100
             (okAnalysis (AnalyzeStructure 100 emptyIfaceTree)).str.elements t with
         | .ok l => !l.isEmpty
         | _ => false) = [true]) ∧
    (AnalyzeStructure 100 chanTree = .ok (okAnalysis (AnalyzeStructure 100 chanTree)) ∧
     hasRelByName (okAnalysis (AnalyzeStructure 100 chanTree))
       RelationImplements "U" "Runner" = true ∧
     typeMatches (some chanIntTI) (some chanStringTI) = true ∧
     chanIntTI ≠ chanStringTI) := by
  refine ⟨⟨rfl, rfl, rfl, rfl⟩, rfl, rfl, rfl, ?_⟩
  intro hne
  simp [chanIntTI, chanStringTI, elemTI, intTI, stringTI, basicTI] at hne

end CodeDNA
